import Mathlib

/-!
Shallow embedding of the `hal_effect` binary effect-script decoder
(`src/hal_effect/types.py` and `src/hal_effect/parser.py`).

Conventions of the embedding:

* A Python `bytes` buffer is a `List Nat`; in the original every element is
  in `[0, 256)`, which theorems assume through `ValidBytes` where it matters.
* Python `float` values produced by `struct.unpack(">f", ...)` are carried
  as their 32-bit big-endian bit pattern (`F32 := Nat`): the decoder only
  transports floats, it never computes with them, so the bit pattern is a
  faithful representation.
* Python exceptions that no caller catches (`IndexError` from `data[i]`,
  `struct.error` from `struct.unpack` on a short slice, `TypeError` from a
  dataclass constructor applied to the wrong number of arguments) are
  modelled as `Except.error` outcomes of kind `PyErr`.  The single caught
  exception (`ValueError` from `OpCode(...)`, caught in
  `_parse_instruction`) is modelled directly by the partial lookup
  `OpCode.ofNat?`.
* The reader's state is the pair (buffer, offset); the buffer never
  changes, so each reading function takes the buffer and the current
  offset and returns the value together with the new offset.
-/

/-- Uncaught Python exception kinds that can escape the parser:
`indexError` from `bytes[i]` in `read_u8`, `structError` from
`struct.unpack` on a short slice, and `typeError` from calling a dataclass
constructor with the wrong number of arguments. -/
inductive PyErr : Type
  | indexError
  | structError
  | typeError
  deriving DecidableEq, Repr

/-- A big-endian IEEE-754 single-precision value, represented by its 32-bit
bit pattern (the decoder never interprets float values). -/
abbrev F32 := Nat

/-- `Vec3f` from `types.py`. -/
structure Vec3f where
  x : F32
  y : F32
  z : F32
  deriving DecidableEq, Repr

/-- `OpCode` from `types.py` (an `IntEnum`). -/
inductive OpCode : Type
  | SET_POS | ADD_POS | SET_VEL | ADD_VEL
  | SET_SIZE_LERP | SET_FLAGS | SET_GRAVITY | SET_FRICTION
  | MAKE_SCRIPT | MAKE_GENERATOR | SET_LIFE_RAND | TRY_DEAD_RAND
  | ADD_VEL_RAND | SET_VEL_ANGLE | MAKE_RAND | MUL_VEL | SET_SIZE_RAND
  | SET_FLAG_80 | NO_MASK_ST | MASK_S | MASK_T | MASK_ST | ALPHA_BLEND
  | NO_DITHER | DITHER | NO_NOISE | NOISE
  | SET_DIST_VEL | ADD_DIST_VEL_MAG | MAKE_ID | PRIM_BLEND_RAND
  | ENV_BLEND_RAND | SET_UNK_0B | SET_VEL_MAG | MUL_VEL_AXIS | SET_ATTACH_ID
  | SET_PRIM_BLEND | SET_ENV_BLEND
  | SET_LOOP | LOOP | SET_RETURN | RETURN | DEAD | END
  deriving DecidableEq, Repr

/-- The numeric value of each `OpCode` member, as declared in `types.py`. -/
def OpCode.toNat : OpCode → Nat
  | .SET_POS => 0x80
  | .ADD_POS => 0x88
  | .SET_VEL => 0x90
  | .ADD_VEL => 0x98
  | .SET_SIZE_LERP => 0xA0
  | .SET_FLAGS => 0xA1
  | .SET_GRAVITY => 0xA2
  | .SET_FRICTION => 0xA3
  | .MAKE_SCRIPT => 0xA4
  | .MAKE_GENERATOR => 0xA5
  | .SET_LIFE_RAND => 0xA6
  | .TRY_DEAD_RAND => 0xA7
  | .ADD_VEL_RAND => 0xA8
  | .SET_VEL_ANGLE => 0xA9
  | .MAKE_RAND => 0xAA
  | .MUL_VEL => 0xAB
  | .SET_SIZE_RAND => 0xAC
  | .SET_FLAG_80 => 0xAD
  | .NO_MASK_ST => 0xAE
  | .MASK_S => 0xAF
  | .MASK_T => 0xB0
  | .MASK_ST => 0xB1
  | .ALPHA_BLEND => 0xB2
  | .NO_DITHER => 0xB3
  | .DITHER => 0xB4
  | .NO_NOISE => 0xB5
  | .NOISE => 0xB6
  | .SET_DIST_VEL => 0xB7
  | .ADD_DIST_VEL_MAG => 0xB8
  | .MAKE_ID => 0xB9
  | .PRIM_BLEND_RAND => 0xBA
  | .ENV_BLEND_RAND => 0xBB
  | .SET_UNK_0B => 0xBC
  | .SET_VEL_MAG => 0xBD
  | .MUL_VEL_AXIS => 0xBE
  | .SET_ATTACH_ID => 0xBF
  | .SET_PRIM_BLEND => 0xC0
  | .SET_ENV_BLEND => 0xD0
  | .SET_LOOP => 0xFA
  | .LOOP => 0xFB
  | .SET_RETURN => 0xFC
  | .RETURN => 0xFD
  | .DEAD => 0xFE
  | .END => 0xFF

/-- `OpCode(n)` in Python: `some` member for a declared value, `none` for
the `ValueError` case. -/
def OpCode.ofNat? (n : Nat) : Option OpCode :=
  match n with
  | 0x80 => some .SET_POS
  | 0x88 => some .ADD_POS
  | 0x90 => some .SET_VEL
  | 0x98 => some .ADD_VEL
  | 0xA0 => some .SET_SIZE_LERP
  | 0xA1 => some .SET_FLAGS
  | 0xA2 => some .SET_GRAVITY
  | 0xA3 => some .SET_FRICTION
  | 0xA4 => some .MAKE_SCRIPT
  | 0xA5 => some .MAKE_GENERATOR
  | 0xA6 => some .SET_LIFE_RAND
  | 0xA7 => some .TRY_DEAD_RAND
  | 0xA8 => some .ADD_VEL_RAND
  | 0xA9 => some .SET_VEL_ANGLE
  | 0xAA => some .MAKE_RAND
  | 0xAB => some .MUL_VEL
  | 0xAC => some .SET_SIZE_RAND
  | 0xAD => some .SET_FLAG_80
  | 0xAE => some .NO_MASK_ST
  | 0xAF => some .MASK_S
  | 0xB0 => some .MASK_T
  | 0xB1 => some .MASK_ST
  | 0xB2 => some .ALPHA_BLEND
  | 0xB3 => some .NO_DITHER
  | 0xB4 => some .DITHER
  | 0xB5 => some .NO_NOISE
  | 0xB6 => some .NOISE
  | 0xB7 => some .SET_DIST_VEL
  | 0xB8 => some .ADD_DIST_VEL_MAG
  | 0xB9 => some .MAKE_ID
  | 0xBA => some .PRIM_BLEND_RAND
  | 0xBB => some .ENV_BLEND_RAND
  | 0xBC => some .SET_UNK_0B
  | 0xBD => some .SET_VEL_MAG
  | 0xBE => some .MUL_VEL_AXIS
  | 0xBF => some .SET_ATTACH_ID
  | 0xC0 => some .SET_PRIM_BLEND
  | 0xD0 => some .SET_ENV_BLEND
  | 0xFA => some .SET_LOOP
  | 0xFB => some .LOOP
  | 0xFC => some .SET_RETURN
  | 0xFD => some .RETURN
  | 0xFE => some .DEAD
  | 0xFF => some .END
  | _ => none

/-- `WaitInstruction` from `types.py`. -/
structure WaitInstruction where
  frames : Nat
  data_id : Option Nat
  deriving DecidableEq, Repr

/-- `VectorInstruction` from `types.py` (each component optional). -/
structure VectorInstruction where
  x : Option F32
  y : Option F32
  z : Option F32
  deriving DecidableEq, Repr

/-- `SizeLerpInstruction` from `types.py`. -/
structure SizeLerpInstruction where
  lerp_length : Nat
  target_size : F32
  deriving DecidableEq, Repr

/-- `ColorBlendInstruction` from `types.py`. -/
structure ColorBlendInstruction where
  lerp_length : Nat
  red : Option Nat
  green : Option Nat
  blue : Option Nat
  alpha : Option Nat
  deriving DecidableEq, Repr

/-- `ScriptInstruction` from `types.py`. -/
structure ScriptInstruction where
  script_id : Nat
  deriving DecidableEq, Repr

/-- `LifeRandInstruction` from `types.py`. -/
structure LifeRandInstruction where
  base_life : Nat
  random_range : Nat
  deriving DecidableEq, Repr

/-- `TryDeadRandInstruction` from `types.py`. -/
structure TryDeadRandInstruction where
  probability : Nat
  deriving DecidableEq, Repr

/-- `VelRandInstruction` from `types.py`. -/
structure VelRandInstruction where
  x_range : F32
  y_range : F32
  z_range : F32
  deriving DecidableEq, Repr

/-- `VelAngleInstruction` from `types.py`. -/
structure VelAngleInstruction where
  angle : F32
  deriving DecidableEq, Repr

/-- `VelMulInstruction` from `types.py`. -/
structure VelMulInstruction where
  factor : F32
  deriving DecidableEq, Repr

/-- `VelAxisMulInstruction` from `types.py`. -/
structure VelAxisMulInstruction where
  x_factor : F32
  y_factor : F32
  z_factor : F32
  deriving DecidableEq, Repr

/-- `UnkInstruction` from `types.py`. -/
structure UnkInstruction where
  base_value : Nat
  random_range : Nat
  deriving DecidableEq, Repr

/-- `SetFlagsInstruction` from `types.py`. -/
structure SetFlagsInstruction where
  flags : Nat
  deriving DecidableEq, Repr

/-- `SetLoopInstruction` from `types.py`. -/
structure SetLoopInstruction where
  count : Nat
  deriving DecidableEq, Repr

/-- `SetSizeRandInstruction` from `types.py`.  Note: the dataclass declares
exactly these two fields, although `parser.py` tries to construct it with
three positional arguments. -/
structure SetSizeRandInstruction where
  base_size : F32
  random_range : F32
  deriving DecidableEq, Repr

/-- The `Union[...]` of operand variants accepted by `Instruction.args` in
`types.py` (`SimpleInstruction` is the field-less variant). -/
inductive InstrArgs : Type
  | wait (w : WaitInstruction)
  | vector (v : VectorInstruction)
  | sizeLerp (s : SizeLerpInstruction)
  | colorBlend (c : ColorBlendInstruction)
  | script (s : ScriptInstruction)
  | lifeRand (l : LifeRandInstruction)
  | tryDeadRand (t : TryDeadRandInstruction)
  | velRand (v : VelRandInstruction)
  | velAngle (v : VelAngleInstruction)
  | velMul (v : VelMulInstruction)
  | velAxisMul (v : VelAxisMulInstruction)
  | unk (u : UnkInstruction)
  | setFlags (s : SetFlagsInstruction)
  | setLoop (s : SetLoopInstruction)
  | simple
  | setSizeRand (s : SetSizeRandInstruction)
  deriving DecidableEq, Repr

/-- `Instruction` from `types.py`: an opcode tag paired with one operand
variant. -/
structure Instruction where
  opcode : OpCode
  args : InstrArgs
  deriving DecidableEq, Repr

/-- `EffectScript` from `types.py`.  The 12 bytes skipped by
`_parse_effect_script` have no corresponding field in the dataclass. -/
structure EffectScript where
  kind : Nat
  texture_id : Nat
  effect_lifetime : Nat
  particle_lifetime : Nat
  flags : Nat
  gravity : F32
  friction : F32
  velocity : Vec3f
  size : F32
  bytecode : List Instruction
  deriving DecidableEq, Repr

/-- `EffectScriptPtr` from `types.py`. -/
structure EffectScriptPtr where
  ptr_value : Nat
  target : Option EffectScript
  deriving DecidableEq, Repr

/-- `ParticleScriptDesc` from `types.py` (the count is the raw signed
32-bit value read from the header). -/
structure ParticleScriptDesc where
  count : Int
  scripts : List EffectScriptPtr
  deriving DecidableEq, Repr

/-- Elements of a Python `bytes` object are always in `[0, 256)`. -/
def ValidBytes (d : List Nat) : Prop := ∀ b ∈ d, b < 256

/-- `BinaryReader.can_read`: `offset + size <= len(data)`. -/
def can_read (d : List Nat) (off size : Nat) : Bool := off + size ≤ d.length

/-- `BinaryReader.read_u8`: `data[offset]`, raising `IndexError` past the
end of the buffer. -/
def read_u8 (d : List Nat) (off : Nat) : Except PyErr (Nat × Nat) :=
  if off < d.length then .ok (d.getD off 0, off + 1) else .error .indexError

/-- `BinaryReader.read_u16`: big-endian `>H` via `struct.unpack`, raising
`struct.error` when fewer than two bytes remain. -/
def read_u16 (d : List Nat) (off : Nat) : Except PyErr (Nat × Nat) :=
  if off + 2 ≤ d.length then
    .ok (d.getD off 0 * 256 + d.getD (off + 1) 0, off + 2)
  else .error .structError

/-- `BinaryReader.read_u32`: big-endian `>I`. -/
def read_u32 (d : List Nat) (off : Nat) : Except PyErr (Nat × Nat) :=
  if off + 4 ≤ d.length then
    .ok (((d.getD off 0 * 256 + d.getD (off + 1) 0) * 256 + d.getD (off + 2) 0) * 256
          + d.getD (off + 3) 0, off + 4)
  else .error .structError

/-- `BinaryReader.read_s32`: big-endian `>i`, two's complement. -/
def read_s32 (d : List Nat) (off : Nat) : Except PyErr (Int × Nat) :=
  if off + 4 ≤ d.length then
    let w := ((d.getD off 0 * 256 + d.getD (off + 1) 0) * 256 + d.getD (off + 2) 0) * 256
              + d.getD (off + 3) 0
    .ok (if w < 2 ^ 31 then (w : Int) else (w : Int) - 2 ^ 32, off + 4)
  else .error .structError

/-- `BinaryReader.read_float`: big-endian `>f`; the value is carried as its
32-bit bit pattern (see `F32`). -/
def read_float (d : List Nat) (off : Nat) : Except PyErr (F32 × Nat) :=
  if off + 4 ≤ d.length then
    .ok (((d.getD off 0 * 256 + d.getD (off + 1) 0) * 256 + d.getD (off + 2) 0) * 256
          + d.getD (off + 3) 0, off + 4)
  else .error .structError

/-- `BinaryReader.read_var_length_u16`: the 1-or-2-byte variable-length
field.  Total: returns the sentinel 0 (without the +1 offset) when the
buffer is exhausted before or inside the field. -/
def read_var_length_u16 (d : List Nat) (off : Nat) : Nat × Nat :=
  if d.length ≤ off then (0, off)
  else
    let first := d.getD off 0
    if first &&& 0x80 ≠ 0 then
      if d.length ≤ off + 1 then (0, off + 1)
      else ((((first &&& 0x7F) <<< 8) + d.getD (off + 1) 0) + 1, off + 2)
    else (first + 1, off + 1)

/-- Sequencing of reader steps: propagate an uncaught exception, otherwise
continue with the value and the advanced offset (the `bytes` buffer itself
never changes). -/
def ebind {α β : Type} (m : Except PyErr (α × Nat))
    (f : α → Nat → Except PyErr (β × Nat)) : Except PyErr (β × Nat) :=
  match m with
  | .error e => .error e
  | .ok (a, off) => f a off

/-- `BinaryReader.read_vec3f`. -/
def read_vec3f (d : List Nat) (off : Nat) : Except PyErr (Vec3f × Nat) :=
  ebind (read_float d off) fun x off =>
  ebind (read_float d off) fun y off =>
  ebind (read_float d off) fun z off =>
  .ok (⟨x, y, z⟩, off)

/-- One conditional operand read of `_parse_instruction`'s vector branch:
`if opcode & bit: args.c = reader.read_float()`. -/
def read_opt_float (d : List Nat) (off : Nat) (present : Bool) :
    Except PyErr (Option F32 × Nat) :=
  if present then ebind (read_float d off) fun v off => .ok (some v, off)
  else .ok (none, off)

/-- One conditional operand read of `_parse_instruction`'s color-blend
branch: `if opcode & bit: args.c = reader.read_u8()`. -/
def read_opt_u8 (d : List Nat) (off : Nat) (present : Bool) :
    Except PyErr (Option Nat × Nat) :=
  if present then ebind (read_u8 d off) fun v off => .ok (some v, off)
  else .ok (none, off)

/-- The Wait branch of `_parse_instruction` (`opcode < 0x80`), entered with
the cursor already past the opcode byte.  Note the source tags the result
with `OpCode.END`. -/
def parse_wait (d : List Nat) (off : Nat) (opcode : Nat) :
    Except PyErr (Option Instruction × Nat) :=
  let frames := opcode &&& 0x1F
  ebind
    (if opcode &&& 0x20 ≠ 0 then
      ebind (read_u8 d off) fun extra off => .ok ((frames <<< 8) ||| extra, off)
    else .ok (frames, off)) fun frames off =>
  ebind
    (if opcode &&& 0x40 ≠ 0 then
      ebind (read_u8 d off) fun b off => .ok ((some b : Option Nat), off)
    else .ok ((none : Option Nat), off)) fun data_id off =>
  .ok (some ⟨OpCode.END, .wait ⟨frames, data_id⟩⟩, off)

/-- `OpCode(opcode & 0xF8)` inside the vector branch, where the mask is
known to be one of the four vector base codes. -/
def vector_tag (opcode : Nat) : OpCode :=
  if opcode &&& 0xF8 = 0x80 then .SET_POS
  else if opcode &&& 0xF8 = 0x88 then .ADD_POS
  else if opcode &&& 0xF8 = 0x90 then .SET_VEL
  else .ADD_VEL

/-- The vector branch of `_parse_instruction`: low three bits of the opcode
are the x/y/z presence mask. -/
def parse_vector (d : List Nat) (off : Nat) (opcode : Nat) :
    Except PyErr (Option Instruction × Nat) :=
  ebind (read_opt_float d off (opcode &&& 1 != 0)) fun x off =>
  ebind (read_opt_float d off (opcode &&& 2 != 0)) fun y off =>
  ebind (read_opt_float d off (opcode &&& 4 != 0)) fun z off =>
  .ok (some ⟨vector_tag opcode, .vector ⟨x, y, z⟩⟩, off)

/-- `OpCode(opcode & 0xF0)` inside the color-blend branch, where the mask
is known to be `0xC0` or `0xD0`. -/
def blend_tag (opcode : Nat) : OpCode :=
  if opcode &&& 0xF0 = 0xC0 then .SET_PRIM_BLEND else .SET_ENV_BLEND

/-- The color-blend branch of `_parse_instruction`: a variable-length
interpolation length, then the low four opcode bits gate the r/g/b/a byte
reads in that fixed order. -/
def parse_color_blend (d : List Nat) (off : Nat) (opcode : Nat) :
    Except PyErr (Option Instruction × Nat) :=
  let (length, off) := read_var_length_u16 d off
  ebind (read_opt_u8 d off (opcode &&& 1 != 0)) fun red off =>
  ebind (read_opt_u8 d off (opcode &&& 2 != 0)) fun green off =>
  ebind (read_opt_u8 d off (opcode &&& 4 != 0)) fun blue off =>
  ebind (read_opt_u8 d off (opcode &&& 8 != 0)) fun alpha off =>
  .ok (some ⟨blend_tag opcode, .colorBlend ⟨length, red, green, blue, alpha⟩⟩, off)

/-- The exact-opcode stage of `_parse_instruction` (after `OpCode(opcode)`
succeeded).  The catch-all mirrors the final `return None` for enum
members without a decoding branch.  The `SET_SIZE_RAND` branch performs
its three reads and then fails: `SetSizeRandInstruction(length, base,
range_val)` passes three positional arguments to a two-field dataclass,
which raises `TypeError` in Python. -/
def parse_exact (d : List Nat) (off : Nat) (op : OpCode) :
    Except PyErr (Option Instruction × Nat) :=
  match op with
  | .MAKE_SCRIPT | .MAKE_GENERATOR | .MAKE_ID =>
    ebind (read_u16 d off) fun script_id off =>
    .ok (some ⟨op, .script ⟨script_id⟩⟩, off)
  | .SET_SIZE_LERP =>
    let (length, off) := read_var_length_u16 d off
    ebind (read_float d off) fun size off =>
    .ok (some ⟨op, .sizeLerp ⟨length, size⟩⟩, off)
  | .SET_LIFE_RAND =>
    ebind (read_u16 d off) fun base off =>
    ebind (read_u16 d off) fun range_val off =>
    .ok (some ⟨op, .lifeRand ⟨base, range_val⟩⟩, off)
  | .TRY_DEAD_RAND =>
    ebind (read_u8 d off) fun prob off =>
    .ok (some ⟨op, .tryDeadRand ⟨prob⟩⟩, off)
  | .ADD_VEL_RAND =>
    ebind (read_float d off) fun x off =>
    ebind (read_float d off) fun y off =>
    ebind (read_float d off) fun z off =>
    .ok (some ⟨op, .velRand ⟨x, y, z⟩⟩, off)
  | .SET_VEL_ANGLE =>
    ebind (read_float d off) fun angle off =>
    .ok (some ⟨op, .velAngle ⟨angle⟩⟩, off)
  | .MUL_VEL =>
    ebind (read_float d off) fun factor off =>
    .ok (some ⟨op, .velMul ⟨factor⟩⟩, off)
  | .MUL_VEL_AXIS =>
    ebind (read_float d off) fun x off =>
    ebind (read_float d off) fun y off =>
    ebind (read_float d off) fun z off =>
    .ok (some ⟨op, .velAxisMul ⟨x, y, z⟩⟩, off)
  | .SET_UNK_0B =>
    ebind (read_u8 d off) fun base off =>
    ebind (read_u8 d off) fun range_val off =>
    .ok (some ⟨op, .unk ⟨base, range_val⟩⟩, off)
  | .SET_FLAGS =>
    ebind (read_u8 d off) fun flags off =>
    .ok (some ⟨op, .setFlags ⟨flags⟩⟩, off)
  | .SET_LOOP =>
    ebind (read_u8 d off) fun count off =>
    .ok (some ⟨op, .setLoop ⟨count⟩⟩, off)
  | .SET_SIZE_RAND =>
    let (_length, off) := read_var_length_u16 d off
    ebind (read_float d off) fun _base off =>
    ebind (read_float d off) fun _range_val _off =>
    .error .typeError
  | .LOOP | .SET_RETURN | .RETURN | .DEAD | .END =>
    .ok (some ⟨op, .simple⟩, off)
  | _ => .ok (none, off)

/-- Dispatch on the opcode byte after it has been consumed: the ordered
family tests of `_parse_instruction`. -/
def dispatch_opcode (d : List Nat) (off : Nat) (opcode : Nat) :
    Except PyErr (Option Instruction × Nat) :=
  if opcode < 0x80 then parse_wait d off opcode
  else if (opcode &&& 0xF8) ∈ [0x80, 0x88, 0x90, 0x98] then parse_vector d off opcode
  else if (opcode &&& 0xF0) ∈ [0xC0, 0xD0] then parse_color_blend d off opcode
  else
    match OpCode.ofNat? opcode with
    | none => .ok (none, off)
    | some op => parse_exact d off op

/-- `EffectScriptParser._parse_instruction`: `none` with the cursor
unchanged on end-of-stream, `none` with the opcode byte consumed on an
unrecognized or branch-less opcode, otherwise one decoded instruction. -/
def parse_instruction (d : List Nat) (off : Nat) :
    Except PyErr (Option Instruction × Nat) :=
  if can_read d off 1 then
    ebind (read_u8 d off) fun opcode off => dispatch_opcode d off opcode
  else .ok (none, off)

/-- The `while True` loop guard `self.reader.offset >= next_ptr` of
`_parse_effect_script`. -/
def boundary_hit : Option Nat → Nat → Bool
  | none, _ => false
  | some p, off => decide (p ≤ off)

/-- The bytecode loop of `_parse_effect_script`, with an explicit fuel
parameter for structural recursion.  Fuel exhaustion is unreachable for
the fuel supplied by `parse_effect_script` (each decoded instruction
advances the cursor, see `parse_instruction_bounds`); the value of the
fuel-0 clause is immaterial there. -/
def parse_bytecode (d : List Nat) :
    Nat → Nat → Option Nat → Except PyErr (List Instruction × Nat)
  | 0, off, _ => .ok ([], off)
  | fuel + 1, off, next_ptr =>
    if boundary_hit next_ptr off then .ok ([], off)
    else
      match parse_instruction d off with
      | .error e => .error e
      | .ok (none, off') => .ok ([], off')
      | .ok (some instr, off') =>
        if instr.opcode = OpCode.END then .ok ([instr], off')
        else
          match parse_bytecode d fuel off' next_ptr with
          | .error e => .error e
          | .ok (rest, o) => .ok (instr :: rest, o)

/-- `EffectScriptParser._parse_effect_script`: fixed header (with
`skip(12)` over the three unknown fields), then the bytecode loop. -/
def parse_effect_script (d : List Nat) (off : Nat) (next_ptr : Option Nat) :
    Except PyErr (EffectScript × Nat) :=
  ebind (read_u16 d off) fun kind off =>
  ebind (read_u16 d off) fun texture_id off =>
  ebind (read_u16 d off) fun effect_lifetime off =>
  ebind (read_u16 d off) fun particle_lifetime off =>
  ebind (read_u32 d off) fun flags off =>
  ebind (read_float d off) fun gravity off =>
  ebind (read_float d off) fun friction off =>
  ebind (read_vec3f d off) fun velocity off =>
  let off := off + 12
  ebind (read_float d off) fun size off =>
  ebind (parse_bytecode d (d.length + 1) off next_ptr) fun bytecode off =>
  .ok (⟨kind, texture_id, effect_lifetime, particle_lifetime, flags,
        gravity, friction, velocity, size, bytecode⟩, off)

/-- The inner forward scan of `_parse_particle_script_desc`: the first
non-null pointer value among the remaining table slots. -/
def next_nonzero : List Nat → Option Nat
  | [] => none
  | p :: ps => if p = 0 then next_nonzero ps else some p

/-- The pointer-reading loop of `_parse_particle_script_desc`. -/
def read_ptrs (d : List Nat) : Nat → Nat → Except PyErr (List Nat × Nat)
  | 0, off => .ok ([], off)
  | n + 1, off =>
    ebind (read_u32 d off) fun p off =>
    ebind (read_ptrs d n off) fun ps off =>
    .ok ((p :: ps : List Nat), off)

/-- The per-slot resolution loop of `_parse_particle_script_desc`.  The
source seeks to the slot's pointer, decodes the record bounded by the next
non-null pointer, and restores the cursor; the restore makes the cursor
state pass through each iteration unchanged, so it is dropped here. -/
def resolve_slots (d : List Nat) : List Nat → Except PyErr (List EffectScriptPtr)
  | [] => .ok []
  | p :: rest =>
    match
      (if p ≠ 0 then
        match parse_effect_script d p (next_nonzero rest) with
        | .error e => .error e
        | .ok (es, _) => .ok (some es)
      else .ok (none : Option EffectScript) : Except PyErr (Option EffectScript)) with
    | .error e => .error e
    | .ok target =>
      match resolve_slots d rest with
      | .error e => .error e
      | .ok tail => .ok (⟨p, target⟩ :: tail)

/-- `EffectScriptParser.parse` / `_parse_particle_script_desc`: signed
count, pointer table, then each non-null slot's record.  A negative count
makes `range(count)` empty (`Int.toNat` of a negative is 0). -/
def parse_particle_script_desc (d : List Nat) : Except PyErr ParticleScriptDesc :=
  match read_s32 d 0 with
  | .error e => .error e
  | .ok (count, off) =>
    match read_ptrs d count.toNat off with
    | .error e => .error e
    | .ok (ptrs, _) =>
      match resolve_slots d ptrs with
      | .error e => .error e
      | .ok scripts => .ok ⟨count, scripts⟩

/-- The tag/variant pairings that the decoder can actually emit (one line
per `Instruction(...)` construction site in `_parse_instruction`): every
family pairs its own tag with its own variant, except that the Wait branch
tags its `WaitInstruction` payload with `OpCode.END`, so the `END` tag is
the one tag carried by two different variants.  `SET_SIZE_RAND` appears in
no line because its branch raises before constructing an instruction. -/
def tag_variant_consistent (i : Instruction) : Bool :=
  match i.opcode, i.args with
  | .END, .wait _ => true
  | .SET_POS, .vector _ => true
  | .ADD_POS, .vector _ => true
  | .SET_VEL, .vector _ => true
  | .ADD_VEL, .vector _ => true
  | .SET_PRIM_BLEND, .colorBlend _ => true
  | .SET_ENV_BLEND, .colorBlend _ => true
  | .MAKE_SCRIPT, .script _ => true
  | .MAKE_GENERATOR, .script _ => true
  | .MAKE_ID, .script _ => true
  | .SET_SIZE_LERP, .sizeLerp _ => true
  | .SET_LIFE_RAND, .lifeRand _ => true
  | .TRY_DEAD_RAND, .tryDeadRand _ => true
  | .ADD_VEL_RAND, .velRand _ => true
  | .SET_VEL_ANGLE, .velAngle _ => true
  | .MUL_VEL, .velMul _ => true
  | .MUL_VEL_AXIS, .velAxisMul _ => true
  | .SET_UNK_0B, .unk _ => true
  | .SET_FLAGS, .setFlags _ => true
  | .SET_LOOP, .setLoop _ => true
  | .LOOP, .simple => true
  | .SET_RETURN, .simple => true
  | .RETURN, .simple => true
  | .DEAD, .simple => true
  | .END, .simple => true
  | _, _ => false

/-- The opcode byte values that are named in the `OpCode` enumeration but
have no operand-decoding branch in `_parse_instruction`: `SET_GRAVITY`,
`SET_FRICTION`, `MAKE_RAND`, the flag opcodes `0xAD`-`0xB6`,
`SET_DIST_VEL`, `ADD_DIST_VEL_MAG`, `PRIM_BLEND_RAND`, `ENV_BLEND_RAND`,
`SET_VEL_MAG`, and `SET_ATTACH_ID`. -/
def branchless_named : List Nat :=
  [0xA2, 0xA3, 0xAA, 0xAD, 0xAE, 0xAF, 0xB0, 0xB1, 0xB2, 0xB3, 0xB4, 0xB5,
   0xB6, 0xB7, 0xB8, 0xBA, 0xBB, 0xBD, 0xBF]

/-- The opcode byte values belonging to no `OpCode` member and to no
masked family: `0xE0`-`0xF9`. -/
def unknown_opcode_bytes : List Nat :=
  [0xE0, 0xE1, 0xE2, 0xE3, 0xE4, 0xE5, 0xE6, 0xE7, 0xE8, 0xE9, 0xEA, 0xEB,
   0xEC, 0xED, 0xEE, 0xEF, 0xF0, 0xF1, 0xF2, 0xF3, 0xF4, 0xF5, 0xF6, 0xF7,
   0xF8, 0xF9]

/-- Two buffers of equal length agreeing byte-for-byte from position `off`
on.  All reader functions at offsets `≥ off` behave identically on such
buffers. -/
def Agree (d₁ d₂ : List Nat) (off : Nat) : Prop :=
  d₁.length = d₂.length ∧
    ∀ j, off ≤ j → j < d₁.length → d₁.getD j 0 = d₂.getD j 0

/-- A container for concrete evaluation: record count 2, a null pointer in
slot 0, and a pointer to an all-zero effect record (terminated by a single
`END` instruction) in slot 1. -/
def c8_container : List Nat :=
  [0, 0, 0, 2, 0, 0, 0, 0, 0, 0, 0, 12] ++ List.replicate 48 0 ++ [0xFF]

/-- The effect record stored at offset 12 of `c8_container`. -/
def c8_record : EffectScript :=
  ⟨0, 0, 0, 0, 0, 0, 0, ⟨0, 0, 0⟩, 0, [⟨OpCode.END, .simple⟩]⟩

/-- The decoded form of `c8_container`. -/
def c8_desc : ParticleScriptDesc := ⟨2, [⟨0, none⟩, ⟨12, some c8_record⟩]⟩

/-- A record whose bytecode bytes are a Wait opcode `0x05` followed by the
`END` opcode `0xFF` (48 zero header bytes precede them). -/
def wait_then_end_record : List Nat := List.replicate 48 0 ++ [0x05, 0xFF]

/-- A record buffer whose 12 skipped header bytes (offsets 32-43) are all
zero. -/
def skip_zero_record : List Nat := List.replicate 48 0 ++ [0xFF]

/-- The same record buffer as `skip_zero_record` except that the 12
skipped header bytes hold `9 8 7 6 5 4 3 2 1 2 3 4`. -/
def skip_junk_record : List Nat :=
  List.replicate 32 0 ++ [9, 8, 7, 6, 5, 4, 3, 2, 1, 2, 3, 4] ++
    List.replicate 4 0 ++ [0xFF]

instance (d : List Nat) : Decidable (ValidBytes d) :=
  inferInstanceAs (Decidable (∀ b ∈ d, b < 256))

instance {ε α : Type} [DecidableEq ε] [DecidableEq α] : DecidableEq (Except ε α)
  | .error e, .error f =>
    if h : e = f then .isTrue (by rw [h]) else .isFalse (by intro c; cases c; exact h rfl)
  | .error _, .ok _ => .isFalse (by intro c; cases c)
  | .ok _, .error _ => .isFalse (by intro c; cases c)
  | .ok a, .ok b =>
    if h : a = b then .isTrue (by rw [h]) else .isFalse (by intro c; cases c; exact h rfl)

example : parse_instruction [0x05] 0 =
    .ok (some ⟨OpCode.END, .wait ⟨5, none⟩⟩, 1) := by decide

example : parse_instruction [0x2C, 0x01] 0 =
    .ok (some ⟨OpCode.END, .wait ⟨3073, none⟩⟩, 2) := by decide

example : parse_instruction [0x45, 0x7B] 0 =
    .ok (some ⟨OpCode.END, .wait ⟨5, some 123⟩⟩, 2) := by decide

example : parse_instruction [0xFF] 0 =
    .ok (some ⟨OpCode.END, .simple⟩, 1) := by decide

example : parse_instruction [0xA1, 0x80] 0 =
    .ok (some ⟨OpCode.SET_FLAGS, .setFlags ⟨0x80⟩⟩, 2) := by decide

example : parse_instruction [0xAC, 0x00, 0x40, 0xA0, 0x00, 0x00, 0x41, 0xF0, 0x00, 0x00] 0 =
    .error .typeError := by decide

example : parse_instruction [0xA2] 0 = .ok (none, 1) := by decide

example : parse_instruction [0xE0] 0 = .ok (none, 1) := by decide

/-! ### Inversion and bounds lemmas for the reader primitives -/

theorem ebind_eq_ok {α β : Type} {m : Except PyErr (α × Nat)}
    {f : α → Nat → Except PyErr (β × Nat)} {b : β} {off' : Nat} :
    ebind m f = .ok (b, off') ↔
      ∃ a off₁, m = .ok (a, off₁) ∧ f a off₁ = .ok (b, off') := by
  constructor
  · intro h
    cases m with
    | error e => exact Except.noConfusion h
    | ok p =>
      obtain ⟨a, o⟩ := p
      exact ⟨a, o, rfl, h⟩
  · rintro ⟨a, off₁, h₁, h₂⟩
    rw [h₁]
    exact h₂

theorem read_u8_bounds {d : List Nat} {off v off' : Nat}
    (h : read_u8 d off = .ok (v, off')) : off' = off + 1 ∧ off' ≤ d.length := by
  unfold read_u8 at h
  split at h
  · simp only [Except.ok.injEq, Prod.mk.injEq] at h
    omega
  · exact Except.noConfusion h

theorem read_u16_bounds {d : List Nat} {off v off' : Nat}
    (h : read_u16 d off = .ok (v, off')) : off' = off + 2 ∧ off' ≤ d.length := by
  unfold read_u16 at h
  split at h
  · simp only [Except.ok.injEq, Prod.mk.injEq] at h
    omega
  · exact Except.noConfusion h

theorem read_u32_bounds {d : List Nat} {off v off' : Nat}
    (h : read_u32 d off = .ok (v, off')) : off' = off + 4 ∧ off' ≤ d.length := by
  unfold read_u32 at h
  split at h
  · simp only [Except.ok.injEq, Prod.mk.injEq] at h
    omega
  · exact Except.noConfusion h

theorem read_float_bounds {d : List Nat} {off off' : Nat} {v : F32}
    (h : read_float d off = .ok (v, off')) : off' = off + 4 ∧ off' ≤ d.length := by
  unfold read_float at h
  split at h
  · simp only [Except.ok.injEq, Prod.mk.injEq] at h
    omega
  · exact Except.noConfusion h

theorem read_vec3f_bounds {d : List Nat} {off off' : Nat} {v : Vec3f}
    (h : read_vec3f d off = .ok (v, off')) : off' = off + 12 ∧ off' ≤ d.length := by
  unfold read_vec3f at h
  obtain ⟨x, o₁, h₁, h⟩ := ebind_eq_ok.mp h
  obtain ⟨y, o₂, h₂, h⟩ := ebind_eq_ok.mp h
  obtain ⟨z, o₃, h₃, h⟩ := ebind_eq_ok.mp h
  obtain ⟨e₁, l₁⟩ := read_float_bounds h₁
  obtain ⟨e₂, l₂⟩ := read_float_bounds h₂
  obtain ⟨e₃, l₃⟩ := read_float_bounds h₃
  simp only [Except.ok.injEq, Prod.mk.injEq] at h
  omega

theorem read_var_length_u16_bounds (d : List Nat) (off : Nat) (hoff : off ≤ d.length) :
    off ≤ (read_var_length_u16 d off).2 ∧ (read_var_length_u16 d off).2 ≤ d.length := by
  unfold read_var_length_u16
  by_cases h₁ : d.length ≤ off
  · simp only [if_pos h₁]
    omega
  · by_cases h₂ : d.getD off 0 &&& 0x80 ≠ 0
    · by_cases h₃ : d.length ≤ off + 1
      · simp only [if_neg h₁, if_pos h₂, if_pos h₃]
        omega
      · simp only [if_neg h₁, if_pos h₂, if_neg h₃]
        omega
    · simp only [if_neg h₁, if_neg h₂]
      omega

theorem read_opt_float_bounds {d : List Nat} {off off' : Nat} {p : Bool} {v : Option F32}
    (hoff : off ≤ d.length) (h : read_opt_float d off p = .ok (v, off')) :
    off ≤ off' ∧ off' ≤ d.length := by
  unfold read_opt_float at h
  split at h
  · obtain ⟨w, o₁, h₁, h⟩ := ebind_eq_ok.mp h
    obtain ⟨e₁, l₁⟩ := read_float_bounds h₁
    simp only [Except.ok.injEq, Prod.mk.injEq] at h
    omega
  · simp only [Except.ok.injEq, Prod.mk.injEq] at h
    omega

theorem read_opt_u8_bounds {d : List Nat} {off off' : Nat} {p : Bool} {v : Option Nat}
    (hoff : off ≤ d.length) (h : read_opt_u8 d off p = .ok (v, off')) :
    off ≤ off' ∧ off' ≤ d.length := by
  unfold read_opt_u8 at h
  split at h
  · obtain ⟨w, o₁, h₁, h⟩ := ebind_eq_ok.mp h
    obtain ⟨e₁, l₁⟩ := read_u8_bounds h₁
    simp only [Except.ok.injEq, Prod.mk.injEq] at h
    omega
  · simp only [Except.ok.injEq, Prod.mk.injEq] at h
    omega

theorem parse_wait_bounds {d : List Nat} {off off' opcode : Nat}
    {oi : Option Instruction} (hoff : off ≤ d.length)
    (h : parse_wait d off opcode = .ok (oi, off')) :
    off ≤ off' ∧ off' ≤ d.length := by
  unfold parse_wait at h
  obtain ⟨f₁, o₁, h₁, h⟩ := ebind_eq_ok.mp h
  obtain ⟨dd, o₂, h₂, h⟩ := ebind_eq_ok.mp h
  have b₁ : off ≤ o₁ ∧ o₁ ≤ d.length := by
    split at h₁
    · obtain ⟨e, o₃, h₃, h₁⟩ := ebind_eq_ok.mp h₁
      obtain ⟨e₃, l₃⟩ := read_u8_bounds h₃
      simp only [Except.ok.injEq, Prod.mk.injEq] at h₁
      omega
    · simp only [Except.ok.injEq, Prod.mk.injEq] at h₁
      omega
  have b₂ : o₁ ≤ o₂ ∧ o₂ ≤ d.length := by
    split at h₂
    · obtain ⟨e, o₃, h₃, h₂⟩ := ebind_eq_ok.mp h₂
      obtain ⟨e₃, l₃⟩ := read_u8_bounds h₃
      simp only [Except.ok.injEq, Prod.mk.injEq] at h₂
      omega
    · simp only [Except.ok.injEq, Prod.mk.injEq] at h₂
      omega
  simp only [Except.ok.injEq, Prod.mk.injEq] at h
  omega

theorem parse_vector_bounds {d : List Nat} {off off' opcode : Nat}
    {oi : Option Instruction} (hoff : off ≤ d.length)
    (h : parse_vector d off opcode = .ok (oi, off')) :
    off ≤ off' ∧ off' ≤ d.length := by
  unfold parse_vector at h
  obtain ⟨x, o₁, h₁, h⟩ := ebind_eq_ok.mp h
  obtain ⟨b₁, l₁⟩ := read_opt_float_bounds hoff h₁
  obtain ⟨y, o₂, h₂, h⟩ := ebind_eq_ok.mp h
  obtain ⟨b₂, l₂⟩ := read_opt_float_bounds l₁ h₂
  obtain ⟨z, o₃, h₃, h⟩ := ebind_eq_ok.mp h
  obtain ⟨b₃, l₃⟩ := read_opt_float_bounds l₂ h₃
  simp only [Except.ok.injEq, Prod.mk.injEq] at h
  omega

theorem parse_color_blend_bounds {d : List Nat} {off off' opcode : Nat}
    {oi : Option Instruction} (hoff : off ≤ d.length)
    (h : parse_color_blend d off opcode = .ok (oi, off')) :
    off ≤ off' ∧ off' ≤ d.length := by
  unfold parse_color_blend at h
  obtain ⟨hv, lv⟩ := read_var_length_u16_bounds d off hoff
  obtain ⟨r, o₁, h₁, h⟩ := ebind_eq_ok.mp h
  obtain ⟨b₁, l₁⟩ := read_opt_u8_bounds lv h₁
  obtain ⟨g, o₂, h₂, h⟩ := ebind_eq_ok.mp h
  obtain ⟨b₂, l₂⟩ := read_opt_u8_bounds l₁ h₂
  obtain ⟨bl, o₃, h₃, h⟩ := ebind_eq_ok.mp h
  obtain ⟨b₃, l₃⟩ := read_opt_u8_bounds l₂ h₃
  obtain ⟨al, o₄, h₄, h⟩ := ebind_eq_ok.mp h
  obtain ⟨b₄, l₄⟩ := read_opt_u8_bounds l₃ h₄
  simp only [Except.ok.injEq, Prod.mk.injEq] at h
  omega

theorem parse_exact_bounds {d : List Nat} {off off' : Nat} {op : OpCode}
    {oi : Option Instruction} (hoff : off ≤ d.length)
    (h : parse_exact d off op = .ok (oi, off')) :
    off ≤ off' ∧ off' ≤ d.length := by
  have hv := read_var_length_u16_bounds d off hoff
  cases op <;> simp only [parse_exact] at h
  all_goals try (simp only [Except.ok.injEq, Prod.mk.injEq] at h; omega)
  case MAKE_SCRIPT =>
    obtain ⟨v₁, o₁, h₁, h⟩ := ebind_eq_ok.mp h
    obtain ⟨e₁, l₁⟩ := read_u16_bounds h₁
    simp only [Except.ok.injEq, Prod.mk.injEq] at h
    omega
  case MAKE_GENERATOR =>
    obtain ⟨v₁, o₁, h₁, h⟩ := ebind_eq_ok.mp h
    obtain ⟨e₁, l₁⟩ := read_u16_bounds h₁
    simp only [Except.ok.injEq, Prod.mk.injEq] at h
    omega
  case MAKE_ID =>
    obtain ⟨v₁, o₁, h₁, h⟩ := ebind_eq_ok.mp h
    obtain ⟨e₁, l₁⟩ := read_u16_bounds h₁
    simp only [Except.ok.injEq, Prod.mk.injEq] at h
    omega
  case SET_SIZE_LERP =>
    obtain ⟨v₁, o₁, h₁, h⟩ := ebind_eq_ok.mp h
    obtain ⟨e₁, l₁⟩ := read_float_bounds h₁
    simp only [Except.ok.injEq, Prod.mk.injEq] at h
    omega
  case SET_LIFE_RAND =>
    obtain ⟨v₁, o₁, h₁, h⟩ := ebind_eq_ok.mp h
    obtain ⟨e₁, l₁⟩ := read_u16_bounds h₁
    obtain ⟨v₂, o₂, h₂, h⟩ := ebind_eq_ok.mp h
    obtain ⟨e₂, l₂⟩ := read_u16_bounds h₂
    simp only [Except.ok.injEq, Prod.mk.injEq] at h
    omega
  case TRY_DEAD_RAND =>
    obtain ⟨v₁, o₁, h₁, h⟩ := ebind_eq_ok.mp h
    obtain ⟨e₁, l₁⟩ := read_u8_bounds h₁
    simp only [Except.ok.injEq, Prod.mk.injEq] at h
    omega
  case ADD_VEL_RAND =>
    obtain ⟨v₁, o₁, h₁, h⟩ := ebind_eq_ok.mp h
    obtain ⟨e₁, l₁⟩ := read_float_bounds h₁
    obtain ⟨v₂, o₂, h₂, h⟩ := ebind_eq_ok.mp h
    obtain ⟨e₂, l₂⟩ := read_float_bounds h₂
    obtain ⟨v₃, o₃, h₃, h⟩ := ebind_eq_ok.mp h
    obtain ⟨e₃, l₃⟩ := read_float_bounds h₃
    simp only [Except.ok.injEq, Prod.mk.injEq] at h
    omega
  case SET_VEL_ANGLE =>
    obtain ⟨v₁, o₁, h₁, h⟩ := ebind_eq_ok.mp h
    obtain ⟨e₁, l₁⟩ := read_float_bounds h₁
    simp only [Except.ok.injEq, Prod.mk.injEq] at h
    omega
  case MUL_VEL =>
    obtain ⟨v₁, o₁, h₁, h⟩ := ebind_eq_ok.mp h
    obtain ⟨e₁, l₁⟩ := read_float_bounds h₁
    simp only [Except.ok.injEq, Prod.mk.injEq] at h
    omega
  case MUL_VEL_AXIS =>
    obtain ⟨v₁, o₁, h₁, h⟩ := ebind_eq_ok.mp h
    obtain ⟨e₁, l₁⟩ := read_float_bounds h₁
    obtain ⟨v₂, o₂, h₂, h⟩ := ebind_eq_ok.mp h
    obtain ⟨e₂, l₂⟩ := read_float_bounds h₂
    obtain ⟨v₃, o₃, h₃, h⟩ := ebind_eq_ok.mp h
    obtain ⟨e₃, l₃⟩ := read_float_bounds h₃
    simp only [Except.ok.injEq, Prod.mk.injEq] at h
    omega
  case SET_UNK_0B =>
    obtain ⟨v₁, o₁, h₁, h⟩ := ebind_eq_ok.mp h
    obtain ⟨e₁, l₁⟩ := read_u8_bounds h₁
    obtain ⟨v₂, o₂, h₂, h⟩ := ebind_eq_ok.mp h
    obtain ⟨e₂, l₂⟩ := read_u8_bounds h₂
    simp only [Except.ok.injEq, Prod.mk.injEq] at h
    omega
  case SET_FLAGS =>
    obtain ⟨v₁, o₁, h₁, h⟩ := ebind_eq_ok.mp h
    obtain ⟨e₁, l₁⟩ := read_u8_bounds h₁
    simp only [Except.ok.injEq, Prod.mk.injEq] at h
    omega
  case SET_LOOP =>
    obtain ⟨v₁, o₁, h₁, h⟩ := ebind_eq_ok.mp h
    obtain ⟨e₁, l₁⟩ := read_u8_bounds h₁
    simp only [Except.ok.injEq, Prod.mk.injEq] at h
    omega
  case SET_SIZE_RAND =>
    obtain ⟨v₁, o₁, h₁, h⟩ := ebind_eq_ok.mp h
    obtain ⟨v₂, o₂, h₂, h⟩ := ebind_eq_ok.mp h
    exact Except.noConfusion h

theorem parse_instruction_bounds {d : List Nat} {off off' : Nat} {i : Instruction}
    (h : parse_instruction d off = .ok (some i, off')) :
    off < off' ∧ off' ≤ d.length := by
  unfold parse_instruction at h
  split at h
  · obtain ⟨opcode, o₁, h₁, h⟩ := ebind_eq_ok.mp h
    obtain ⟨e₁, l₁⟩ := read_u8_bounds h₁
    subst e₁
    unfold dispatch_opcode at h
    split at h
    · have := parse_wait_bounds l₁ h
      omega
    · split at h
      · have := parse_vector_bounds l₁ h
        omega
      · split at h
        · have := parse_color_blend_bounds l₁ h
          omega
        · split at h
          · simp at h
          · have := parse_exact_bounds l₁ h
            omega
  · simp at h

theorem parse_instruction_step (d : List Nat) (off : Nat) (hlt : off < d.length) :
    parse_instruction d off = dispatch_opcode d (off + 1) (d.getD off 0) := by
  unfold parse_instruction
  rw [if_pos (by simp only [can_read, decide_eq_true_eq]; omega)]
  unfold read_u8
  rw [if_pos hlt]
  rfl

/-- Conversion between the `+` used by `read_var_length_u16` in the source
and the `|` of the specification: they agree because the second byte is
below 256. -/
theorem shl8_add_eq_or (a b : Nat) (hb : b < 256) :
    (a <<< 8) + b = (a <<< 8) ||| b := by
  have h1 : a <<< 8 = 2 ^ 8 * a := by
    rw [Nat.shiftLeft_eq]
    ring
  rw [h1]
  exact Nat.mul_add_lt_is_or (by norm_num [hb]) a

theorem getD_lt_256 {d : List Nat} (hv : ValidBytes d) {j : Nat}
    (hj : j < d.length) : d.getD j 0 < 256 := by
  have hm : d.getD j 0 ∈ d := by
    rw [List.getD_eq_getElem d 0 hj]
    exact List.getElem_mem hj
  exact hv _ hm

/-! ### Claim theorems -/

/-- C4: decoding the size-rand opcode `0xAC` does not return an
instruction at all — after reading the variable-length field and the two
big-endian f32 values, `_parse_instruction` constructs
`SetSizeRandInstruction(length, base, range_val)` with three positional
arguments although the dataclass declares only two fields (`base_size`,
`random_range`), which raises `TypeError`.  Evaluated here at the byte
sequence of the repository's own `SET_SIZE_RAND` test case
(`AC 00 40 A0 00 00 41 F0 00 00`), which expects a successful
three-field instruction. -/
theorem size_rand_type_error :
    parse_instruction [0xAC, 0x00, 0x40, 0xA0, 0x00, 0x00, 0x41, 0xF0, 0x00, 0x00] 0 =
      .error .typeError := by decide

/-- C6: for every Wait-family opcode byte `o < 0x80` (decoded with enough
operand bytes), the payload is a `WaitInstruction` whose frame count is
`o & 0x1F` when bit `0x20` is clear, and `((o & 0x1F) << 8) | extra` with
`extra` the next byte when bit `0x20` is set; the data-id byte is read and
present exactly when bit `0x40` is set; the cursor advances past exactly
the consumed bytes. -/
theorem wait_decoding_formula (o e₁ e₂ : Nat) (ho : o < 0x80) :
    parse_instruction [o, e₁, e₂] 0 =
      .ok (some ⟨OpCode.END, .wait
        ⟨if o &&& 0x20 ≠ 0 then ((o &&& 0x1F) <<< 8) ||| e₁ else o &&& 0x1F,
         if o &&& 0x40 ≠ 0 then some (if o &&& 0x20 ≠ 0 then e₂ else e₁) else none⟩⟩,
        1 + (if o &&& 0x20 ≠ 0 then 1 else 0) + (if o &&& 0x40 ≠ 0 then 1 else 0)) := by
  rw [parse_instruction_step [o, e₁, e₂] 0 (by simp)]
  unfold dispatch_opcode
  rw [if_pos (by simpa using ho)]
  unfold parse_wait
  by_cases h20 : o &&& 0x20 ≠ 0 <;> by_cases h40 : o &&& 0x40 ≠ 0 <;>
    simp [h20, h40, read_u8, ebind, List.getD]

/-- C6 witness: the three worked examples of the claim,
`[0x05] → frames=5, no data-id`, `[0x2C, 0x01] → frames=3073, no
data-id`, `[0x45, 0x7B] → frames=5, data-id=123`, each obtained from
`wait_decoding_formula` at the concrete opcode byte. -/
theorem wait_decoding_formula_witness :
    parse_instruction [0x05, 0xAA, 0xBB] 0 =
      .ok (some ⟨OpCode.END, .wait ⟨5, none⟩⟩, 1) ∧
    parse_instruction [0x2C, 0x01, 0xBB] 0 =
      .ok (some ⟨OpCode.END, .wait ⟨3073, none⟩⟩, 2) ∧
    parse_instruction [0x45, 0x7B, 0xBB] 0 =
      .ok (some ⟨OpCode.END, .wait ⟨5, some 123⟩⟩, 2) :=
  ⟨wait_decoding_formula 0x05 0xAA 0xBB (by decide),
   wait_decoding_formula 0x2C 0x01 0xBB (by decide),
   wait_decoding_formula 0x45 0x7B 0xBB (by decide)⟩

/-- C7: the variable-length u16 read returns `b + 1` consuming one byte
when the first byte `b` has bit `0x80` clear; returns
`(((b & 0x7F) << 8) | second) + 1` consuming two bytes when bit `0x80` is
set and a second byte exists; and returns 0 without failing on an
exhausted cursor. -/
theorem var_length_u16_spec (d : List Nat) (hv : ValidBytes d) (off : Nat) :
    (d.length ≤ off → read_var_length_u16 d off = (0, off)) ∧
    (off < d.length → d.getD off 0 &&& 0x80 = 0 →
      read_var_length_u16 d off = (d.getD off 0 + 1, off + 1)) ∧
    (off < d.length → d.getD off 0 &&& 0x80 ≠ 0 → off + 1 < d.length →
      read_var_length_u16 d off =
        ((((d.getD off 0 &&& 0x7F) <<< 8) ||| d.getD (off + 1) 0) + 1, off + 2)) := by
  refine ⟨fun hle => ?_, fun hlt hb => ?_, fun hlt hb hlt₂ => ?_⟩
  · unfold read_var_length_u16
    rw [if_pos hle]
  · unfold read_var_length_u16
    rw [if_neg (by omega), if_neg (by simpa using hb)]
  · unfold read_var_length_u16
    rw [if_neg (by omega)]
    simp only [if_pos hb, if_neg (show ¬ d.length ≤ off + 1 by omega)]
    rw [shl8_add_eq_or _ _ (getD_lt_256 hv hlt₂)]

/-- C7 witness: `[0x3C]` decodes to 61 consuming one byte, `[0x81, 0x05]`
decodes to `(0x0105) + 1 = 262` consuming two bytes, and the empty buffer
yields the sentinel 0, each via `var_length_u16_spec`. -/
theorem var_length_u16_spec_witness :
    read_var_length_u16 [0x3C] 0 = (61, 1) ∧
    read_var_length_u16 [0x81, 0x05] 0 = (262, 2) ∧
    read_var_length_u16 [] 0 = (0, 0) :=
  ⟨(var_length_u16_spec [0x3C] (by decide) 0).2.1 (by decide) (by decide),
   (var_length_u16_spec [0x81, 0x05] (by decide) 0).2.2 (by decide) (by decide) (by decide),
   (var_length_u16_spec [] (by decide) 0).1 (by decide)⟩

/-- C9: when the first byte has bit `0x80` set but no byte follows, the
variable-length read consumes that first byte and returns the sentinel 0 —
the same value as for an already-empty cursor — with no failure and no
`+1` offset applied. -/
theorem var_length_truncated_sentinel (d : List Nat) (off : Nat)
    (hlt : off < d.length) (hb : d.getD off 0 &&& 0x80 ≠ 0)
    (hlast : d.length ≤ off + 1) :
    read_var_length_u16 d off = (0, off + 1) ∧
    read_var_length_u16 [] 0 = (0, 0) := by
  constructor
  · unfold read_var_length_u16
    rw [if_neg (by omega)]
    simp only [if_pos hb, if_pos hlast]
  · rfl

/-- C9 witness: the single byte `0x80` (two-byte form announced, second
byte missing) yields `(0, 1)`, matching the empty-cursor sentinel. -/
theorem var_length_truncated_sentinel_witness :
    read_var_length_u16 [0x80] 0 = (0, 1) ∧
    read_var_length_u16 [] 0 = (0, 0) :=
  var_length_truncated_sentinel [0x80] 0 (by decide) (by decide) (by decide)

/-- C10: every opcode byte that is named in `OpCode` but has no decoding
branch (`0xA2`, `0xA3`, `0xAA`, `0xAD`-`0xB6`, `0xB7`, `0xB8`, `0xBA`,
`0xBB`, `0xBD`, `0xBF`) makes `_parse_instruction` return the
invalid-opcode result — no instruction, one byte consumed — exactly as
for the opcode bytes `0xE0`-`0xF9` outside the known opcode set. -/
theorem branchless_opcodes_invalid (d : List Nat) (off : Nat) (hlt : off < d.length) :
    (d.getD off 0 ∈ branchless_named → parse_instruction d off = .ok (none, off + 1)) ∧
    (d.getD off 0 ∈ unknown_opcode_bytes → parse_instruction d off = .ok (none, off + 1)) := by
  have hstep := parse_instruction_step d off hlt
  constructor
  · intro hm
    rw [hstep]
    revert hm
    generalize d.getD off 0 = b
    intro hm
    fin_cases hm <;> rfl
  · intro hm
    rw [hstep]
    revert hm
    generalize d.getD off 0 = b
    intro hm
    fin_cases hm <;> rfl

/-- C10 witness: the named branch-less byte `0xA2` (`SET_GRAVITY`) and the
unknown byte `0xE0` both decode to `(none, 1)`, via
`branchless_opcodes_invalid` on a one-byte buffer. -/
theorem branchless_opcodes_invalid_witness :
    parse_instruction [0xA2] 0 = .ok (none, 1) ∧
    parse_instruction [0xE0] 0 = .ok (none, 1) :=
  ⟨(branchless_opcodes_invalid [0xA2] 0 (by decide)).1 (by decide),
   (branchless_opcodes_invalid [0xE0] 0 (by decide)).2 (by decide)⟩

theorem ebind_ok_last {α β : Type} {m : Except PyErr (α × Nat)}
    {f : α → Nat → Except PyErr (β × Nat)} {b : β} {off' : Nat}
    (h : ebind m f = .ok (b, off')) : ∃ a o, f a o = .ok (b, off') := by
  obtain ⟨a, o, -, h₂⟩ := ebind_eq_ok.mp h
  exact ⟨a, o, h₂⟩

theorem parse_wait_emits {d : List Nat} {off opcode off' : Nat} {i : Instruction}
    (h : parse_wait d off opcode = .ok (some i, off')) :
    ∃ w, i = ⟨OpCode.END, .wait w⟩ := by
  unfold parse_wait at h
  obtain ⟨_, _, h⟩ := ebind_ok_last h
  obtain ⟨_, _, h⟩ := ebind_ok_last h
  simp only [Except.ok.injEq, Prod.mk.injEq] at h
  obtain ⟨h₁, -⟩ := h
  exact ⟨_, (Option.some.inj h₁).symm⟩

theorem parse_vector_emits {d : List Nat} {off opcode off' : Nat} {i : Instruction}
    (h : parse_vector d off opcode = .ok (some i, off')) :
    ∃ v, i = ⟨vector_tag opcode, .vector v⟩ := by
  unfold parse_vector at h
  obtain ⟨_, _, h⟩ := ebind_ok_last h
  obtain ⟨_, _, h⟩ := ebind_ok_last h
  obtain ⟨_, _, h⟩ := ebind_ok_last h
  simp only [Except.ok.injEq, Prod.mk.injEq] at h
  obtain ⟨h₁, -⟩ := h
  exact ⟨_, (Option.some.inj h₁).symm⟩

theorem parse_color_blend_emits {d : List Nat} {off opcode off' : Nat} {i : Instruction}
    (h : parse_color_blend d off opcode = .ok (some i, off')) :
    ∃ c, i = ⟨blend_tag opcode, .colorBlend c⟩ := by
  unfold parse_color_blend at h
  obtain ⟨_, _, h⟩ := ebind_ok_last h
  obtain ⟨_, _, h⟩ := ebind_ok_last h
  obtain ⟨_, _, h⟩ := ebind_ok_last h
  obtain ⟨_, _, h⟩ := ebind_ok_last h
  simp only [Except.ok.injEq, Prod.mk.injEq] at h
  obtain ⟨h₁, -⟩ := h
  exact ⟨_, (Option.some.inj h₁).symm⟩

theorem vector_tag_consistent (opcode : Nat) (v : VectorInstruction) :
    tag_variant_consistent ⟨vector_tag opcode, .vector v⟩ = true := by
  unfold vector_tag
  split
  · rfl
  · split
    · rfl
    · split <;> rfl

theorem blend_tag_consistent (opcode : Nat) (c : ColorBlendInstruction) :
    tag_variant_consistent ⟨blend_tag opcode, .colorBlend c⟩ = true := by
  unfold blend_tag
  split <;> rfl

theorem parse_exact_emits {d : List Nat} {off off' : Nat} {op : OpCode} {i : Instruction}
    (h : parse_exact d off op = .ok (some i, off')) :
    tag_variant_consistent i = true := by
  cases op <;> simp only [parse_exact] at h
  all_goals try (simp only [Except.ok.injEq, Prod.mk.injEq] at h
                 obtain ⟨h₁, -⟩ := h
                 first
                 | exact Option.noConfusion h₁
                 | (rw [← Option.some.inj h₁]; rfl))
  case MAKE_SCRIPT =>
    obtain ⟨_, _, h⟩ := ebind_ok_last h
    simp only [Except.ok.injEq, Prod.mk.injEq] at h
    obtain ⟨h₁, -⟩ := h
    rw [← Option.some.inj h₁]
    rfl
  case MAKE_GENERATOR =>
    obtain ⟨_, _, h⟩ := ebind_ok_last h
    simp only [Except.ok.injEq, Prod.mk.injEq] at h
    obtain ⟨h₁, -⟩ := h
    rw [← Option.some.inj h₁]
    rfl
  case MAKE_ID =>
    obtain ⟨_, _, h⟩ := ebind_ok_last h
    simp only [Except.ok.injEq, Prod.mk.injEq] at h
    obtain ⟨h₁, -⟩ := h
    rw [← Option.some.inj h₁]
    rfl
  case SET_SIZE_LERP =>
    obtain ⟨_, _, h⟩ := ebind_ok_last h
    simp only [Except.ok.injEq, Prod.mk.injEq] at h
    obtain ⟨h₁, -⟩ := h
    rw [← Option.some.inj h₁]
    rfl
  case SET_LIFE_RAND =>
    obtain ⟨_, _, h⟩ := ebind_ok_last h
    obtain ⟨_, _, h⟩ := ebind_ok_last h
    simp only [Except.ok.injEq, Prod.mk.injEq] at h
    obtain ⟨h₁, -⟩ := h
    rw [← Option.some.inj h₁]
    rfl
  case TRY_DEAD_RAND =>
    obtain ⟨_, _, h⟩ := ebind_ok_last h
    simp only [Except.ok.injEq, Prod.mk.injEq] at h
    obtain ⟨h₁, -⟩ := h
    rw [← Option.some.inj h₁]
    rfl
  case ADD_VEL_RAND =>
    obtain ⟨_, _, h⟩ := ebind_ok_last h
    obtain ⟨_, _, h⟩ := ebind_ok_last h
    obtain ⟨_, _, h⟩ := ebind_ok_last h
    simp only [Except.ok.injEq, Prod.mk.injEq] at h
    obtain ⟨h₁, -⟩ := h
    rw [← Option.some.inj h₁]
    rfl
  case SET_VEL_ANGLE =>
    obtain ⟨_, _, h⟩ := ebind_ok_last h
    simp only [Except.ok.injEq, Prod.mk.injEq] at h
    obtain ⟨h₁, -⟩ := h
    rw [← Option.some.inj h₁]
    rfl
  case MUL_VEL =>
    obtain ⟨_, _, h⟩ := ebind_ok_last h
    simp only [Except.ok.injEq, Prod.mk.injEq] at h
    obtain ⟨h₁, -⟩ := h
    rw [← Option.some.inj h₁]
    rfl
  case MUL_VEL_AXIS =>
    obtain ⟨_, _, h⟩ := ebind_ok_last h
    obtain ⟨_, _, h⟩ := ebind_ok_last h
    obtain ⟨_, _, h⟩ := ebind_ok_last h
    simp only [Except.ok.injEq, Prod.mk.injEq] at h
    obtain ⟨h₁, -⟩ := h
    rw [← Option.some.inj h₁]
    rfl
  case SET_UNK_0B =>
    obtain ⟨_, _, h⟩ := ebind_ok_last h
    obtain ⟨_, _, h⟩ := ebind_ok_last h
    simp only [Except.ok.injEq, Prod.mk.injEq] at h
    obtain ⟨h₁, -⟩ := h
    rw [← Option.some.inj h₁]
    rfl
  case SET_FLAGS =>
    obtain ⟨_, _, h⟩ := ebind_ok_last h
    simp only [Except.ok.injEq, Prod.mk.injEq] at h
    obtain ⟨h₁, -⟩ := h
    rw [← Option.some.inj h₁]
    rfl
  case SET_LOOP =>
    obtain ⟨_, _, h⟩ := ebind_ok_last h
    simp only [Except.ok.injEq, Prod.mk.injEq] at h
    obtain ⟨h₁, -⟩ := h
    rw [← Option.some.inj h₁]
    rfl
  case SET_SIZE_RAND =>
    obtain ⟨_, _, h⟩ := ebind_ok_last h
    obtain ⟨_, _, h⟩ := ebind_ok_last h
    exact Except.noConfusion h

/-- C1 counterexample: a Wait-family opcode (`0x05`) is decoded to an
instruction whose opcode tag is `OpCode.END` — not a tag denoting the
Wait family — while the `END` opcode `0xFF` is decoded to the same tag
with the `Simple` variant, so the `END` tag is paired with payload
variants of two different families. -/
theorem wait_tag_mismatch_counterexample :
    parse_instruction [0x05] 0 = .ok (some ⟨OpCode.END, .wait ⟨5, none⟩⟩, 1) ∧
    parse_instruction [0xFF] 0 = .ok (some ⟨OpCode.END, .simple⟩, 1) := by decide

/-- C1 (amended): every instruction emitted by the decoder carries one of
the tag/variant pairings of `tag_variant_consistent`: each opcode family's
tag is paired only with its own operand variant, with the single exception
that Wait-family opcodes (byte < `0x80`) are tagged `OpCode.END` while
carrying the Wait variant, so the `END` tag — and only the `END` tag — is
carried by two variants (Wait and Simple). -/
theorem decoded_tag_variant_mapping (d : List Nat) (off : Nat) (i : Instruction)
    (off' : Nat) (h : parse_instruction d off = .ok (some i, off')) :
    tag_variant_consistent i = true := by
  unfold parse_instruction at h
  split at h
  · obtain ⟨opcode, o₁, h₁, h⟩ := ebind_eq_ok.mp h
    unfold dispatch_opcode at h
    split at h
    · obtain ⟨w, rfl⟩ := parse_wait_emits h
      rfl
    · split at h
      · obtain ⟨v, rfl⟩ := parse_vector_emits h
        exact vector_tag_consistent opcode v
      · split at h
        · obtain ⟨c, rfl⟩ := parse_color_blend_emits h
          exact blend_tag_consistent opcode c
        · split at h
          · simp at h
          · exact parse_exact_emits h
  · simp at h

/-- C1 witness: the amended mapping theorem applied to the Wait
instruction decoded from `[0x05]`. -/
theorem decoded_tag_variant_mapping_witness :
    tag_variant_consistent ⟨OpCode.END, .wait ⟨5, none⟩⟩ = true :=
  decoded_tag_variant_mapping [0x05] 0 ⟨OpCode.END, .wait ⟨5, none⟩⟩ 1 (by decide)

/-- C3 counterexample: for the buffer `FF FF FF FF` (record count `N = -1`)
the container decode does not fail — there is no `MalformedTable` error
anywhere in the code — but returns a `ParticleScriptDesc` with the
negative count and an empty script list (`range(-1)` is empty). -/
theorem negative_count_no_error_counterexample :
    parse_particle_script_desc [0xFF, 0xFF, 0xFF, 0xFF] =
      .ok ⟨-1, []⟩ := by decide

/-- C3 (amended): for every buffer whose leading signed 32-bit record
count `N` is negative, the container decode succeeds, returning the
negative count together with an empty script list; no pointer or record
is decoded and no error is raised. -/
theorem negative_count_returns_empty (d : List Nat) (count : Int) (off : Nat)
    (hc : read_s32 d 0 = .ok (count, off)) (hneg : count < 0) :
    parse_particle_script_desc d = .ok ⟨count, []⟩ := by
  unfold parse_particle_script_desc
  rw [hc]
  dsimp only
  rw [Int.toNat_of_nonpos (le_of_lt hneg)]
  rfl

/-- C3 witness: the amended theorem evaluated on the four-byte buffer
encoding `N = -1`. -/
theorem negative_count_returns_empty_witness :
    read_s32 [0xFF, 0xFF, 0xFF, 0xFF] 0 = .ok (-1, 4) ∧
    parse_particle_script_desc [0xFF, 0xFF, 0xFF, 0xFF] = .ok ⟨-1, []⟩ :=
  ⟨by decide, negative_count_returns_empty _ _ 4 (by decide) (by decide)⟩

theorem parse_bytecode_stops (d : List Nat) :
    ∀ (fuel off : Nat) (np : Option Nat) (l : List Instruction) (o : Nat),
      d.length + 1 ≤ fuel + off → off ≤ d.length →
      parse_bytecode d fuel off np = .ok (l, o) →
      (∀ i ∈ l.dropLast, i.opcode ≠ OpCode.END) ∧
      ((∃ pre last, l = pre ++ [last] ∧ last.opcode = OpCode.END) ∨
       (∃ p, np = some p ∧ p ≤ o) ∨
       (∃ o₀, parse_instruction d o₀ = .ok (none, o))) := by
  intro fuel
  induction fuel with
  | zero =>
    intro off np l o hf ho h
    omega
  | succ fuel ih =>
    intro off np l o hf ho h
    unfold parse_bytecode at h
    split at h
    · rename_i hb
      simp only [Except.ok.injEq, Prod.mk.injEq] at h
      obtain ⟨rfl, rfl⟩ := h
      refine ⟨by simp, Or.inr (Or.inl ?_)⟩
      cases np with
      | none => exact absurd hb (by simp [boundary_hit])
      | some p =>
        exact ⟨p, rfl, by simpa [boundary_hit] using hb⟩
    · split at h
      · exact Except.noConfusion h
      · rename_i off' heq
        simp only [Except.ok.injEq, Prod.mk.injEq] at h
        obtain ⟨rfl, rfl⟩ := h
        exact ⟨by simp, Or.inr (Or.inr ⟨off, heq⟩)⟩
      · rename_i instr off' heq
        split at h
        · rename_i hEND
          simp only [Except.ok.injEq, Prod.mk.injEq] at h
          obtain ⟨rfl, rfl⟩ := h
          exact ⟨by simp, Or.inl ⟨[], instr, by simp, hEND⟩⟩
        · rename_i hEND
          split at h
          · exact Except.noConfusion h
          · rename_i rest o' hrest
            simp only [Except.ok.injEq, Prod.mk.injEq] at h
            obtain ⟨rfl, rfl⟩ := h
            obtain ⟨hlt, hle⟩ := parse_instruction_bounds heq
            obtain ⟨hne, hdisj⟩ := ih off' np rest o' (by omega) hle hrest
            constructor
            · intro i hi
              cases rest with
              | nil => simp at hi
              | cons r rs =>
                rw [List.dropLast_cons₂] at hi
                rcases List.mem_cons.mp hi with rfl | hi
                · exact hEND
                · exact hne i hi
            · rcases hdisj with ⟨pre, last, rfl, hl⟩ | h₂ | h₃
              · exact Or.inl ⟨instr :: pre, last, by simp, hl⟩
              · exact Or.inr (Or.inl h₂)
              · exact Or.inr (Or.inr h₃)

/-- C2 counterexample: in the record `wait_then_end_record` (whose
bytecode bytes are the Wait opcode `0x05` followed by the `END` byte
`0xFF`, with no boundary), the loop stops after the Wait instruction:
only one instruction is kept, decoded from byte `0x05` (not `0xFF`), the
boundary was not reached, and the decoder succeeds on the next
instruction — so an instruction other than the `0xFF` terminator ended
the loop early. -/
theorem bytecode_loop_wait_stop_counterexample :
    parse_effect_script wait_then_end_record 0 none =
      .ok (⟨0, 0, 0, 0, 0, 0, 0, ⟨0, 0, 0⟩, 0,
            [⟨OpCode.END, .wait ⟨5, none⟩⟩]⟩, 49) ∧
    wait_then_end_record.getD 48 0 = 0x05 ∧
    wait_then_end_record.length = 50 ∧
    parse_instruction wait_then_end_record 49 =
      .ok (some ⟨OpCode.END, .simple⟩, 50) := by decide

/-- C2 (amended): the bytecode list of every decoded effect record is
built sequentially and stops in one of three ways — the decoded
instruction's opcode tag equals `OpCode.END`, which holds for the `0xFF`
terminator and equally for every Wait-family instruction (the decoder
tags Wait payloads with `OpCode.END`), and that instruction is kept as
the last element; or the cursor reaches the record's boundary with no
partial instruction emitted; or the decoder signals
end-of-stream/invalid-opcode, keeping all instructions already decoded.
No instruction whose decoded tag differs from `END` ends the loop. -/
theorem bytecode_loop_stop_conditions (d : List Nat) (off : Nat) (np : Option Nat)
    (es : EffectScript) (o : Nat) (h : parse_effect_script d off np = .ok (es, o)) :
    (∀ i ∈ es.bytecode.dropLast, i.opcode ≠ OpCode.END) ∧
    ((∃ pre last, es.bytecode = pre ++ [last] ∧ last.opcode = OpCode.END) ∨
     (∃ p, np = some p ∧ p ≤ o) ∨
     (∃ o₀, parse_instruction d o₀ = .ok (none, o))) := by
  unfold parse_effect_script at h
  obtain ⟨kind, o₁, h₁, h⟩ := ebind_eq_ok.mp h
  obtain ⟨texture_id, o₂, h₂, h⟩ := ebind_eq_ok.mp h
  obtain ⟨effect_lifetime, o₃, h₃, h⟩ := ebind_eq_ok.mp h
  obtain ⟨particle_lifetime, o₄, h₄, h⟩ := ebind_eq_ok.mp h
  obtain ⟨flags, o₅, h₅, h⟩ := ebind_eq_ok.mp h
  obtain ⟨gravity, o₆, h₆, h⟩ := ebind_eq_ok.mp h
  obtain ⟨friction, o₇, h₇, h⟩ := ebind_eq_ok.mp h
  obtain ⟨velocity, o₈, h₈, h⟩ := ebind_eq_ok.mp h
  obtain ⟨size, o₉, h₉, h⟩ := ebind_eq_ok.mp h
  obtain ⟨bc, o₁₀, h₁₀, h⟩ := ebind_eq_ok.mp h
  obtain ⟨e₉, l₉⟩ := read_float_bounds h₉
  have hstop := parse_bytecode_stops d (d.length + 1) o₉ np bc o₁₀ (by omega) l₉ h₁₀
  simp only [Except.ok.injEq, Prod.mk.injEq] at h
  obtain ⟨rfl, rfl⟩ := h
  exact hstop

/-- C2 witness: the amended stopping theorem applied to
`wait_then_end_record`: its decoded bytecode `[wait 5]` ends in an
`END`-tagged instruction (the Wait) and contains no `END` tag before the
last position. -/
theorem bytecode_loop_stop_conditions_witness :
    (∀ i ∈ ([⟨OpCode.END, .wait ⟨5, none⟩⟩] : List Instruction).dropLast,
        i.opcode ≠ OpCode.END) ∧
    ((∃ pre last, ([⟨OpCode.END, .wait ⟨5, none⟩⟩] : List Instruction) =
        pre ++ [last] ∧ last.opcode = OpCode.END) ∨
     (∃ p, (none : Option Nat) = some p ∧ p ≤ 49) ∨
     (∃ o₀, parse_instruction wait_then_end_record o₀ = .ok (none, 49))) :=
  bytecode_loop_stop_conditions wait_then_end_record 0 none
    ⟨0, 0, 0, 0, 0, 0, 0, ⟨0, 0, 0⟩, 0, [⟨OpCode.END, .wait ⟨5, none⟩⟩]⟩ 49
    (by decide)

theorem resolve_slots_spec (d : List Nat) :
    ∀ (ps : List Nat) (l : List EffectScriptPtr),
      resolve_slots d ps = .ok l →
      l.map EffectScriptPtr.ptr_value = ps ∧
      ∀ i (hi : i < l.length),
        ((l.get ⟨i, hi⟩).ptr_value = 0 → (l.get ⟨i, hi⟩).target = none) ∧
        ((l.get ⟨i, hi⟩).ptr_value ≠ 0 → ∃ es o,
          parse_effect_script d (l.get ⟨i, hi⟩).ptr_value
            (next_nonzero (ps.drop (i + 1))) = .ok (es, o) ∧
          (l.get ⟨i, hi⟩).target = some es) := by
  intro ps
  induction ps with
  | nil =>
    intro l h
    simp only [resolve_slots, Except.ok.injEq] at h
    subst h
    exact ⟨rfl, fun i hi => absurd hi (by simp)⟩
  | cons p rest ih =>
    intro l h
    simp only [resolve_slots] at h
    split at h
    · exact Except.noConfusion h
    · rename_i target htarget
      split at h
      · exact Except.noConfusion h
      · rename_i tail htail
        simp only [Except.ok.injEq] at h
        subst h
        obtain ⟨hmap, hrest⟩ := ih tail htail
        refine ⟨by simp [hmap], fun i hi => ?_⟩
        cases i with
        | zero =>
          refine ⟨fun hp0 => ?_, fun hp => ?_⟩
          · rw [if_neg (by simpa using (hp0 : p = 0))] at htarget
            exact (by simpa using htarget.symm : target = none)
          · have hp' : p ≠ 0 := hp
            rw [if_pos hp'] at htarget
            split at htarget
            · exact Except.noConfusion htarget
            · rename_i es o hes
              simp only [Except.ok.injEq] at htarget
              exact ⟨es, o, hes, htarget.symm⟩
        | succ n =>
          have hi' : n < tail.length := by
            simp only [List.length_cons] at hi
            omega
          exact hrest n hi'

/-- C8: the resolver processes table slots in order; a slot with a null
pointer yields an absent record; a slot with a non-null pointer is decoded
at exactly its own pointer, bounded by the pointer value of the nearest
later non-null slot — null slots are skipped by the forward scan — or by
end of buffer (`none`) when no later non-null slot exists.  Each slot's
record is thus a function of the buffer, its own pointer, and the later
pointers only, so a null slot's presence does not change how any other
slot is decoded. -/
theorem pointer_table_resolution (d : List Nat) (desc : ParticleScriptDesc)
    (h : parse_particle_script_desc d = .ok desc) (i : Nat)
    (hi : i < desc.scripts.length) :
    ((desc.scripts.get ⟨i, hi⟩).ptr_value = 0 →
      (desc.scripts.get ⟨i, hi⟩).target = none) ∧
    ((desc.scripts.get ⟨i, hi⟩).ptr_value ≠ 0 → ∃ es o,
      parse_effect_script d (desc.scripts.get ⟨i, hi⟩).ptr_value
        (next_nonzero ((desc.scripts.drop (i + 1)).map EffectScriptPtr.ptr_value)) =
        .ok (es, o) ∧
      (desc.scripts.get ⟨i, hi⟩).target = some es) := by
  unfold parse_particle_script_desc at h
  split at h
  · exact Except.noConfusion h
  · rename_i count off hcount
    split at h
    · exact Except.noConfusion h
    · rename_i ptrs off₂ hptrs
      split at h
      · exact Except.noConfusion h
      · rename_i scripts hres
        simp only [Except.ok.injEq] at h
        subst h
        obtain ⟨hmap, hspec⟩ := resolve_slots_spec d ptrs scripts hres
        have hdrop : (scripts.drop (i + 1)).map EffectScriptPtr.ptr_value =
            ptrs.drop (i + 1) := by
          rw [List.map_drop, hmap]
        simp only at hi ⊢
        rw [hdrop]
        exact hspec i hi

/-- C8 witness: the theorem applied to `c8_container` (count 2, slot 0
null, slot 1 pointing at offset 12): slot 0 yields an absent record;
slot 1 is decoded with boundary `none` (no later non-null slot). -/
theorem pointer_table_resolution_witness :
    ((c8_desc.scripts.get ⟨0, by decide⟩).ptr_value = 0 →
      (c8_desc.scripts.get ⟨0, by decide⟩).target = none) ∧
    ((c8_desc.scripts.get ⟨1, by decide⟩).ptr_value ≠ 0 → ∃ es o,
      parse_effect_script c8_container (c8_desc.scripts.get ⟨1, by decide⟩).ptr_value
        (next_nonzero ((c8_desc.scripts.drop 2).map EffectScriptPtr.ptr_value)) =
        .ok (es, o) ∧
      (c8_desc.scripts.get ⟨1, by decide⟩).target = some es) :=
  ⟨(pointer_table_resolution c8_container c8_desc (by decide) 0 (by decide)).1,
   (pointer_table_resolution c8_container c8_desc (by decide) 1 (by decide)).2⟩

/-! ### Congruence lemmas: each reader function depends only on the bytes
it actually reads -/

theorem Agree.mono {d₁ d₂ : List Nat} {off off' : Nat}
    (h : Agree d₁ d₂ off) (hle : off ≤ off') : Agree d₁ d₂ off' :=
  ⟨h.1, fun j hj hl => h.2 j (le_trans hle hj) hl⟩

theorem ebind_congr {α β : Type} {m₁ m₂ : Except PyErr (α × Nat)}
    {f₁ f₂ : α → Nat → Except PyErr (β × Nat)}
    (hm : m₁ = m₂) (hf : ∀ a o, m₂ = .ok (a, o) → f₁ a o = f₂ a o) :
    ebind m₁ f₁ = ebind m₂ f₂ := by
  subst hm
  cases m₁ with
  | error e => rfl
  | ok p =>
    obtain ⟨a, o⟩ := p
    exact hf a o rfl

theorem read_u8_congr_w {d₁ d₂ : List Nat} {off : Nat}
    (hlen : d₁.length = d₂.length)
    (h : ∀ j, off ≤ j → j < off + 1 → j < d₁.length → d₁.getD j 0 = d₂.getD j 0) :
    read_u8 d₁ off = read_u8 d₂ off := by
  unfold read_u8
  rw [← hlen]
  by_cases hc : off < d₁.length
  · rw [if_pos hc, if_pos hc, h off le_rfl (by omega) hc]
  · rw [if_neg hc, if_neg hc]

theorem read_u16_congr_w {d₁ d₂ : List Nat} {off : Nat}
    (hlen : d₁.length = d₂.length)
    (h : ∀ j, off ≤ j → j < off + 2 → j < d₁.length → d₁.getD j 0 = d₂.getD j 0) :
    read_u16 d₁ off = read_u16 d₂ off := by
  unfold read_u16
  rw [← hlen]
  by_cases hc : off + 2 ≤ d₁.length
  · rw [if_pos hc, if_pos hc, h off le_rfl (by omega) (by omega),
      h (off + 1) (by omega) (by omega) (by omega)]
  · rw [if_neg hc, if_neg hc]

theorem read_u32_congr_w {d₁ d₂ : List Nat} {off : Nat}
    (hlen : d₁.length = d₂.length)
    (h : ∀ j, off ≤ j → j < off + 4 → j < d₁.length → d₁.getD j 0 = d₂.getD j 0) :
    read_u32 d₁ off = read_u32 d₂ off := by
  unfold read_u32
  rw [← hlen]
  by_cases hc : off + 4 ≤ d₁.length
  · rw [if_pos hc, if_pos hc, h off le_rfl (by omega) (by omega),
      h (off + 1) (by omega) (by omega) (by omega),
      h (off + 2) (by omega) (by omega) (by omega),
      h (off + 3) (by omega) (by omega) (by omega)]
  · rw [if_neg hc, if_neg hc]

theorem read_float_congr_w {d₁ d₂ : List Nat} {off : Nat}
    (hlen : d₁.length = d₂.length)
    (h : ∀ j, off ≤ j → j < off + 4 → j < d₁.length → d₁.getD j 0 = d₂.getD j 0) :
    read_float d₁ off = read_float d₂ off := by
  unfold read_float
  rw [← hlen]
  by_cases hc : off + 4 ≤ d₁.length
  · rw [if_pos hc, if_pos hc, h off le_rfl (by omega) (by omega),
      h (off + 1) (by omega) (by omega) (by omega),
      h (off + 2) (by omega) (by omega) (by omega),
      h (off + 3) (by omega) (by omega) (by omega)]
  · rw [if_neg hc, if_neg hc]

theorem read_vec3f_congr_w {d₁ d₂ : List Nat} {off : Nat}
    (hlen : d₁.length = d₂.length)
    (h : ∀ j, off ≤ j → j < off + 12 → j < d₁.length → d₁.getD j 0 = d₂.getD j 0) :
    read_vec3f d₁ off = read_vec3f d₂ off := by
  unfold read_vec3f
  refine ebind_congr (read_float_congr_w hlen fun j hj hj' hl => h j hj (by omega) hl)
    fun x o hx => ?_
  obtain ⟨e₁, -⟩ := read_float_bounds hx
  subst e₁
  refine ebind_congr (read_float_congr_w hlen fun j hj hj' hl => h j (by omega) (by omega) hl)
    fun y o hy => ?_
  obtain ⟨e₂, -⟩ := read_float_bounds hy
  subst e₂
  refine ebind_congr (read_float_congr_w hlen fun j hj hj' hl => h j (by omega) (by omega) hl)
    fun z o hz => ?_
  rfl

theorem read_u8_congr {d₁ d₂ : List Nat} {off : Nat} (h : Agree d₁ d₂ off) :
    read_u8 d₁ off = read_u8 d₂ off :=
  read_u8_congr_w h.1 fun j hj _ hl => h.2 j hj hl

theorem read_float_congr {d₁ d₂ : List Nat} {off : Nat} (h : Agree d₁ d₂ off) :
    read_float d₁ off = read_float d₂ off :=
  read_float_congr_w h.1 fun j hj _ hl => h.2 j hj hl

theorem read_u16_congr {d₁ d₂ : List Nat} {off : Nat} (h : Agree d₁ d₂ off) :
    read_u16 d₁ off = read_u16 d₂ off :=
  read_u16_congr_w h.1 fun j hj _ hl => h.2 j hj hl

theorem read_var_length_u16_congr {d₁ d₂ : List Nat} {off : Nat} (h : Agree d₁ d₂ off) :
    read_var_length_u16 d₁ off = read_var_length_u16 d₂ off := by
  unfold read_var_length_u16
  rw [← h.1]
  by_cases h₁ : d₁.length ≤ off
  · rw [if_pos h₁, if_pos h₁]
  · simp only [if_neg h₁, h.2 off le_rfl (by omega)]
    by_cases h₂ : d₂.getD off 0 &&& 0x80 ≠ 0
    · simp only [if_pos h₂]
      by_cases h₃ : d₁.length ≤ off + 1
      · rw [if_pos h₃, if_pos h₃]
      · rw [if_neg h₃, if_neg h₃, h.2 (off + 1) (by omega) (by omega)]
    · simp only [if_neg h₂]

theorem read_var_length_u16_le (d : List Nat) (off : Nat) :
    off ≤ (read_var_length_u16 d off).2 := by
  unfold read_var_length_u16
  by_cases h₁ : d.length ≤ off
  · rw [if_pos h₁]
  · by_cases h₂ : d.getD off 0 &&& 0x80 ≠ 0
    · by_cases h₃ : d.length ≤ off + 1
      · simp only [if_neg h₁, if_pos h₂, if_pos h₃]
        omega
      · simp only [if_neg h₁, if_pos h₂, if_neg h₃]
        omega
    · simp only [if_neg h₁, if_neg h₂]
      omega

theorem read_opt_float_congr {d₁ d₂ : List Nat} {off : Nat} (p : Bool)
    (h : Agree d₁ d₂ off) :
    read_opt_float d₁ off p = read_opt_float d₂ off p := by
  unfold read_opt_float
  cases p
  · rfl
  · exact ebind_congr (read_float_congr h) fun _ _ _ => rfl

theorem read_opt_u8_congr {d₁ d₂ : List Nat} {off : Nat} (p : Bool)
    (h : Agree d₁ d₂ off) :
    read_opt_u8 d₁ off p = read_opt_u8 d₂ off p := by
  unfold read_opt_u8
  cases p
  · rfl
  · exact ebind_congr (read_u8_congr h) fun _ _ _ => rfl

theorem read_opt_float_le {d : List Nat} {off : Nat} {p : Bool} {v : Option F32}
    {off' : Nat} (h : read_opt_float d off p = .ok (v, off')) : off ≤ off' := by
  unfold read_opt_float at h
  split at h
  · obtain ⟨w, o, hw, h⟩ := ebind_eq_ok.mp h
    obtain ⟨e, -⟩ := read_float_bounds hw
    simp only [Except.ok.injEq, Prod.mk.injEq] at h
    omega
  · simp only [Except.ok.injEq, Prod.mk.injEq] at h
    omega

theorem read_opt_u8_le {d : List Nat} {off : Nat} {p : Bool} {v : Option Nat}
    {off' : Nat} (h : read_opt_u8 d off p = .ok (v, off')) : off ≤ off' := by
  unfold read_opt_u8 at h
  split at h
  · obtain ⟨w, o, hw, h⟩ := ebind_eq_ok.mp h
    obtain ⟨e, -⟩ := read_u8_bounds hw
    simp only [Except.ok.injEq, Prod.mk.injEq] at h
    omega
  · simp only [Except.ok.injEq, Prod.mk.injEq] at h
    omega

theorem parse_wait_congr {d₁ d₂ : List Nat} {off opcode : Nat} (h : Agree d₁ d₂ off) :
    parse_wait d₁ off opcode = parse_wait d₂ off opcode := by
  unfold parse_wait
  refine ebind_congr ?_ fun f o hstep => ?_
  · by_cases h20 : opcode &&& 0x20 ≠ 0
    · rw [if_pos h20, if_pos h20]
      exact ebind_congr (read_u8_congr h) fun _ _ _ => rfl
    · rw [if_neg h20, if_neg h20]
  · have ho : off ≤ o := by
      split at hstep
      · obtain ⟨e, o₁, he, hstep⟩ := ebind_eq_ok.mp hstep
        obtain ⟨e₁, -⟩ := read_u8_bounds he
        simp only [Except.ok.injEq, Prod.mk.injEq] at hstep
        omega
      · simp only [Except.ok.injEq, Prod.mk.injEq] at hstep
        omega
    refine ebind_congr ?_ fun dd o₂ h₂ => rfl
    by_cases h40 : opcode &&& 0x40 ≠ 0
    · rw [if_pos h40, if_pos h40]
      exact ebind_congr (read_u8_congr (h.mono ho)) fun _ _ _ => rfl
    · rw [if_neg h40, if_neg h40]

theorem parse_vector_congr {d₁ d₂ : List Nat} {off opcode : Nat} (h : Agree d₁ d₂ off) :
    parse_vector d₁ off opcode = parse_vector d₂ off opcode := by
  unfold parse_vector
  refine ebind_congr (read_opt_float_congr _ h) fun x o₁ h₁ => ?_
  have l₁ := read_opt_float_le h₁
  refine ebind_congr (read_opt_float_congr _ (h.mono l₁)) fun y o₂ h₂ => ?_
  have l₂ := read_opt_float_le h₂
  exact ebind_congr (read_opt_float_congr _ (h.mono (by omega))) fun z o₃ h₃ => rfl

theorem parse_color_blend_congr {d₁ d₂ : List Nat} {off opcode : Nat}
    (h : Agree d₁ d₂ off) :
    parse_color_blend d₁ off opcode = parse_color_blend d₂ off opcode := by
  unfold parse_color_blend
  rw [read_var_length_u16_congr h]
  rcases hrv : read_var_length_u16 d₂ off with ⟨len, o⟩
  have ho : off ≤ o := by
    have := read_var_length_u16_le d₂ off
    rw [hrv] at this
    exact this
  refine ebind_congr (read_opt_u8_congr _ (h.mono ho)) fun r o₁ h₁ => ?_
  have l₁ := read_opt_u8_le h₁
  refine ebind_congr (read_opt_u8_congr _ (h.mono (by omega))) fun g o₂ h₂ => ?_
  have l₂ := read_opt_u8_le h₂
  refine ebind_congr (read_opt_u8_congr _ (h.mono (by omega))) fun bl o₃ h₃ => ?_
  have l₃ := read_opt_u8_le h₃
  exact ebind_congr (read_opt_u8_congr _ (h.mono (by omega))) fun al o₄ h₄ => rfl

theorem parse_exact_congr {d₁ d₂ : List Nat} {off : Nat} (op : OpCode)
    (h : Agree d₁ d₂ off) :
    parse_exact d₁ off op = parse_exact d₂ off op := by
  cases op <;> simp only [parse_exact]
  case MAKE_SCRIPT => exact ebind_congr (read_u16_congr h) fun _ _ _ => rfl
  case MAKE_GENERATOR => exact ebind_congr (read_u16_congr h) fun _ _ _ => rfl
  case MAKE_ID => exact ebind_congr (read_u16_congr h) fun _ _ _ => rfl
  case TRY_DEAD_RAND => exact ebind_congr (read_u8_congr h) fun _ _ _ => rfl
  case SET_VEL_ANGLE => exact ebind_congr (read_float_congr h) fun _ _ _ => rfl
  case MUL_VEL => exact ebind_congr (read_float_congr h) fun _ _ _ => rfl
  case SET_FLAGS => exact ebind_congr (read_u8_congr h) fun _ _ _ => rfl
  case SET_LOOP => exact ebind_congr (read_u8_congr h) fun _ _ _ => rfl
  case SET_LIFE_RAND =>
    refine ebind_congr (read_u16_congr h) fun b o₁ h₁ => ?_
    obtain ⟨e₁, -⟩ := read_u16_bounds h₁
    exact ebind_congr (read_u16_congr (h.mono (by omega))) fun _ _ _ => rfl
  case SET_UNK_0B =>
    refine ebind_congr (read_u8_congr h) fun b o₁ h₁ => ?_
    obtain ⟨e₁, -⟩ := read_u8_bounds h₁
    exact ebind_congr (read_u8_congr (h.mono (by omega))) fun _ _ _ => rfl
  case ADD_VEL_RAND =>
    refine ebind_congr (read_float_congr h) fun x o₁ h₁ => ?_
    obtain ⟨e₁, -⟩ := read_float_bounds h₁
    refine ebind_congr (read_float_congr (h.mono (by omega))) fun y o₂ h₂ => ?_
    obtain ⟨e₂, -⟩ := read_float_bounds h₂
    exact ebind_congr (read_float_congr (h.mono (by omega))) fun _ _ _ => rfl
  case MUL_VEL_AXIS =>
    refine ebind_congr (read_float_congr h) fun x o₁ h₁ => ?_
    obtain ⟨e₁, -⟩ := read_float_bounds h₁
    refine ebind_congr (read_float_congr (h.mono (by omega))) fun y o₂ h₂ => ?_
    obtain ⟨e₂, -⟩ := read_float_bounds h₂
    exact ebind_congr (read_float_congr (h.mono (by omega))) fun _ _ _ => rfl
  case SET_SIZE_LERP =>
    rw [read_var_length_u16_congr h]
    rcases hrv : read_var_length_u16 d₂ off with ⟨len, o⟩
    have ho : off ≤ o := by
      have := read_var_length_u16_le d₂ off
      rw [hrv] at this
      exact this
    exact ebind_congr (read_float_congr (h.mono ho)) fun _ _ _ => rfl
  case SET_SIZE_RAND =>
    rw [read_var_length_u16_congr h]
    rcases hrv : read_var_length_u16 d₂ off with ⟨len, o⟩
    have ho : off ≤ o := by
      have := read_var_length_u16_le d₂ off
      rw [hrv] at this
      exact this
    refine ebind_congr (read_float_congr (h.mono ho)) fun b o₁ h₁ => ?_
    obtain ⟨e₁, -⟩ := read_float_bounds h₁
    exact ebind_congr (read_float_congr (h.mono (by omega))) fun _ _ _ => rfl

theorem dispatch_opcode_congr {d₁ d₂ : List Nat} {off : Nat} (opcode : Nat)
    (h : Agree d₁ d₂ off) :
    dispatch_opcode d₁ off opcode = dispatch_opcode d₂ off opcode := by
  unfold dispatch_opcode
  by_cases h₁ : opcode < 0x80
  · rw [if_pos h₁, if_pos h₁]
    exact parse_wait_congr h
  · rw [if_neg h₁, if_neg h₁]
    by_cases h₂ : (opcode &&& 0xF8) ∈ [0x80, 0x88, 0x90, 0x98]
    · rw [if_pos h₂, if_pos h₂]
      exact parse_vector_congr h
    · rw [if_neg h₂, if_neg h₂]
      by_cases h₃ : (opcode &&& 0xF0) ∈ [0xC0, 0xD0]
      · rw [if_pos h₃, if_pos h₃]
        exact parse_color_blend_congr h
      · rw [if_neg h₃, if_neg h₃]
        cases hop : OpCode.ofNat? opcode with
        | none => rfl
        | some op => exact parse_exact_congr op h

theorem parse_instruction_congr {d₁ d₂ : List Nat} {off : Nat} (h : Agree d₁ d₂ off) :
    parse_instruction d₁ off = parse_instruction d₂ off := by
  unfold parse_instruction
  have hcr : can_read d₁ off 1 = can_read d₂ off 1 := by
    unfold can_read
    rw [h.1]
  rw [← hcr]
  by_cases hc : can_read d₁ off 1 = true
  · rw [if_pos hc, if_pos hc]
    refine ebind_congr (read_u8_congr h) fun opcode o hop => ?_
    obtain ⟨e, -⟩ := read_u8_bounds hop
    exact dispatch_opcode_congr opcode (h.mono (by omega))
  · rw [if_neg hc, if_neg hc]

theorem parse_bytecode_congr {d₁ d₂ : List Nat} :
    ∀ (fuel off : Nat) (np : Option Nat), Agree d₁ d₂ off →
      parse_bytecode d₁ fuel off np = parse_bytecode d₂ fuel off np := by
  intro fuel
  induction fuel with
  | zero =>
    intro off np h
    rfl
  | succ fuel ih =>
    intro off np h
    unfold parse_bytecode
    by_cases hb : boundary_hit np off = true
    · rw [if_pos hb, if_pos hb]
    · rw [if_neg hb, if_neg hb]
      rw [parse_instruction_congr h]
      cases hpi : parse_instruction d₂ off with
      | error e => rfl
      | ok p =>
        obtain ⟨oi, off'⟩ := p
        cases oi with
        | none => rfl
        | some instr =>
          dsimp only
          by_cases hEND : instr.opcode = OpCode.END
          · rw [if_pos hEND, if_pos hEND]
          · rw [if_neg hEND, if_neg hEND]
            obtain ⟨hlt, -⟩ := parse_instruction_bounds hpi
            rw [ih off' np (h.mono (le_of_lt hlt))]

/-- C5 counterexample: two record buffers that differ exactly in the 12
unattributed header bytes (offsets 32-43, between the initial-velocity
vector and the size float) decode to identical `EffectScript` records —
the `EffectScript` dataclass has no field for those bytes and the parser
skips them — so the 12 bytes are not preserved in the decoded record. -/
theorem skip_bytes_not_preserved_counterexample :
    skip_zero_record.getD 32 0 = 0 ∧
    skip_junk_record.getD 32 0 = 9 ∧
    skip_zero_record.length = skip_junk_record.length ∧
    parse_effect_script skip_zero_record 0 none =
      .ok (⟨0, 0, 0, 0, 0, 0, 0, ⟨0, 0, 0⟩, 0, [⟨OpCode.END, .simple⟩]⟩, 49) ∧
    parse_effect_script skip_junk_record 0 none =
      .ok (⟨0, 0, 0, 0, 0, 0, 0, ⟨0, 0, 0⟩, 0, [⟨OpCode.END, .simple⟩]⟩, 49) := by
  decide

/-- C5 (amended): the 12 unattributed fixed header bytes between the
initial-velocity vector and the size float (offsets `base+32` to
`base+43` of the record) are skipped and discarded — the decoded record
has no field holding them, and the decode result is entirely independent
of their values: two equal-length buffers that agree everywhere outside
that 12-byte window decode identically. -/
theorem skip_bytes_ignored (d₁ d₂ : List Nat) (base : Nat) (np : Option Nat)
    (hlen : d₁.length = d₂.length)
    (hagree : ∀ j, j < d₁.length → (j < base + 32 ∨ base + 44 ≤ j) →
      d₁.getD j 0 = d₂.getD j 0) :
    parse_effect_script d₁ base np = parse_effect_script d₂ base np := by
  unfold parse_effect_script
  refine ebind_congr (read_u16_congr_w hlen fun j hj hj' hl => hagree j hl (by omega))
    fun kind o₁ h₁ => ?_
  obtain ⟨e₁, -⟩ := read_u16_bounds h₁
  subst e₁
  refine ebind_congr (read_u16_congr_w hlen fun j hj hj' hl => hagree j hl (by omega))
    fun texture_id o₂ h₂ => ?_
  obtain ⟨e₂, -⟩ := read_u16_bounds h₂
  subst e₂
  refine ebind_congr (read_u16_congr_w hlen fun j hj hj' hl => hagree j hl (by omega))
    fun effect_lifetime o₃ h₃ => ?_
  obtain ⟨e₃, -⟩ := read_u16_bounds h₃
  subst e₃
  refine ebind_congr (read_u16_congr_w hlen fun j hj hj' hl => hagree j hl (by omega))
    fun particle_lifetime o₄ h₄ => ?_
  obtain ⟨e₄, -⟩ := read_u16_bounds h₄
  subst e₄
  refine ebind_congr (read_u32_congr_w hlen fun j hj hj' hl => hagree j hl (by omega))
    fun flags o₅ h₅ => ?_
  obtain ⟨e₅, -⟩ := read_u32_bounds h₅
  subst e₅
  refine ebind_congr (read_float_congr_w hlen fun j hj hj' hl => hagree j hl (by omega))
    fun gravity o₆ h₆ => ?_
  obtain ⟨e₆, -⟩ := read_float_bounds h₆
  subst e₆
  refine ebind_congr (read_float_congr_w hlen fun j hj hj' hl => hagree j hl (by omega))
    fun friction o₇ h₇ => ?_
  obtain ⟨e₇, -⟩ := read_float_bounds h₇
  subst e₇
  refine ebind_congr (read_vec3f_congr_w hlen fun j hj hj' hl => hagree j hl (by omega))
    fun velocity o₈ h₈ => ?_
  obtain ⟨e₈, -⟩ := read_vec3f_bounds h₈
  subst e₈
  refine ebind_congr (read_float_congr_w hlen fun j hj hj' hl => hagree j hl (by omega))
    fun size o₉ h₉ => ?_
  obtain ⟨e₉, -⟩ := read_float_bounds h₉
  subst e₉
  refine ebind_congr ?_ fun bc o₁₀ h₁₀ => rfl
  rw [hlen]
  exact parse_bytecode_congr (d₂.length + 1) _ np
    ⟨hlen, fun j hj hl => hagree j hl (Or.inr (by omega))⟩

/-- C5 witness: the amended independence theorem applied to the concrete
buffer pair of the counterexample (all-zero skipped bytes versus junk
skipped bytes). -/
theorem skip_bytes_ignored_witness :
    parse_effect_script skip_zero_record 0 none =
      parse_effect_script skip_junk_record 0 none :=
  skip_bytes_ignored skip_zero_record skip_junk_record 0 none (by decide) (by decide)
